import Mathlib

/-!
Shallow embedding of the Textify WebSocket server (final `server.js` revision):
single-slot matchmaking, symmetric pair table, message relay with bad-word
moderation, bounded report log, ban sets, and admin-gated operations.

The transport is modelled per connection by an `ip` and an "is the readyState
`OPEN`" flag; `socket.send` is modelled as appending `(recipient, message)` to a
chronological log.  Wall-clock timestamps on reports and on-disk persistence
(`saveReports` / `saveBans`, which only mirror the in-memory value) are outside
the model.  The transport closing (readyState leaving `OPEN`) and the `'close'`
handler firing are distinct events, as they are in the `ws` library: `close()`
flips the readyState at once while the `'close'` callback runs later.
-/

namespace Textify

/-- Association-list model of a JS `Map` keyed by strings: `Map.prototype.get`. -/
def mapGet {α : Type} : List (String × α) → String → Option α
  | [], _ => none
  | (k, v) :: rest, k' => if k = k' then some v else mapGet rest k'

/-- `Map.prototype.set`: replace in place, or append a fresh key. -/
def mapSet {α : Type} : List (String × α) → String → α → List (String × α)
  | [], k, v => [(k, v)]
  | (k', v') :: rest, k, v =>
    if k' = k then (k, v) :: rest else (k', v') :: mapSet rest k v

/-- `Map.prototype.delete`. -/
def mapDelete {α : Type} (m : List (String × α)) (k : String) : List (String × α) :=
  m.filter (fun kv => kv.1 != k)

/-- `Map.prototype.has`. -/
def mapHas {α : Type} (m : List (String × α)) (k : String) : Bool :=
  (mapGet m k).isSome

/-- JS `x || null` applied to an optional string: an absent field and the empty
string both collapse to `null`. -/
def optOrNull : Option String → Option String
  | none => none
  | some s => if s = "" then none else some s

/-- JS `x || d` with a string default. -/
def strOrDefault (x : Option String) (d : String) : String :=
  match x with
  | none => d
  | some s => if s = "" then d else s

/-- JS `String.prototype.toLowerCase`, character-wise. -/
def strToLower (s : String) : String :=
  ⟨s.data.map Char.toLower⟩

/-- Is `pat` a prefix of the character list. -/
def charsPrefix : List Char → List Char → Bool
  | [], _ => true
  | _ :: _, [] => false
  | c :: cs, d :: ds => c = d && charsPrefix cs ds

/-- Does the character list contain `pat` as a contiguous sublist. -/
def charsContain (pat : List Char) : List Char → Bool
  | [] => pat.isEmpty
  | c :: cs => charsPrefix pat (c :: cs) || charsContain pat cs

/-- JS `String.prototype.includes`. -/
def strIncludes (hay pat : String) : Bool :=
  charsContain pat.data hay.data

/-- `containsBadWord` from the source: falsy text is never flagged, the text is
lowercased, falsy entries of `BAD_WORDS` are skipped, any substring match
blocks. -/
def containsBadWord (badWords : List String) (text : String) : Bool :=
  if text = "" then false
  else badWords.any (fun w => w != "" && strIncludes (strToLower text) w)

/-- `loadBadWordsSet`: the raw word list from `badwords.json` is lowercased on
load. -/
def loadBadWordsSet (words : List String) : List String :=
  words.map strToLower

/-- Per-socket transport state: `socket.ip` and whether
`socket.readyState === WebSocket.OPEN`. -/
structure SockState where
  ip : String
  rsOpen : Bool
deriving DecidableEq, Repr

/-- A report object (the `time: new Date().toISOString()` field — a wall-clock
timestamp — is outside the model). -/
structure Report where
  reporterId : String
  reportedId : Option String
  reportedIp : Option String
  reason : String
  message : Option String
deriving DecidableEq, Repr

/-- The three WebRTC signaling envelope kinds that are forwarded verbatim. -/
inductive SigKind
  | videoOffer
  | videoAnswer
  | iceCandidate
deriving DecidableEq, Repr

/-- Outbound notifications, one constructor per `socket.send` literal of the
source.  Only `forwarded` (built by `forwardToPartner` via
`Object.assign({}, message, { from: userId })`) carries a `from` field. -/
inductive OutMsg
  | connected (userId : String)
  | searching
  | partnerFound (partnerId : String)
  | message (text : String)
  | typingMsg (isTyping : Bool)
  | partnerDisconnected
  | warning (text : String)
  | reportAck
  | banned (reason : String)
  | userCount (count : Nat)
  | reportsMsg (reports : List Report)
  | bansMsg (bannedIPs bannedUserIds : List String)
  | banAck
  | unbanAck
  | forwarded (kind : SigKind) (payload : String) (fromId : String)
deriving DecidableEq, Repr

/-- The `from` field carried by an outbound envelope: only messages relayed by
`forwardToPartner` have one. -/
def OutMsg.fromField : OutMsg → Option String
  | .forwarded _ _ f => some f
  | _ => none

/-- Inbound client envelopes, discriminated by their `type` field.  Optional
JSON fields are `Option String`; `unknown` covers unparseable or unknown
kinds (logged and ignored by the source). -/
inductive ClientMsg
  | findPartnerMsg
  | sendMessage (text : String)
  | typingMsg (isTyping : Bool)
  | disconnectChat
  | reportUser (reportedId reportedIp reason message : Option String)
  | getUserCount (adminKey : Option String)
  | getReports (adminKey : Option String)
  | getBans (adminKey : Option String)
  | banUser (adminKey userId ip : Option String)
  | unbanUser (adminKey userId ip : Option String)
  | signaling (kind : SigKind) (payload : String)
  | unknown
deriving DecidableEq, Repr

/-- Server configuration: `process.env.ADMIN_KEY` (`none` when the variable is
unset) and the current `BAD_WORDS` set. -/
structure Config where
  adminKey : Option String
  badWords : List String
deriving DecidableEq, Repr

/-- The server's mutable state.  `activeConnections` maps a userId to its
partnerId (the stored `socket` is always the key's own socket, so it is
recovered from `clients`).  `usedIds` records every identity ever allocated
(`generateId` never repeats within a process lifetime). `sent` is the
chronological log of `socket.send` calls as `(recipient, message)`. -/
structure ServerState where
  waitingUser : Option String
  activeConnections : List (String × String)
  reports : List Report
  bansIps : List String
  bansUserIds : List String
  clients : List (String × SockState)
  usedIds : List String
  sent : List (String × OutMsg)
deriving DecidableEq, Repr

/-- Process start: empty matchmaking state; reports and bans as loaded from
disk. -/
def initState (reports0 : List Report) (ips0 userIds0 : List String) : ServerState :=
  { waitingUser := none, activeConnections := [], reports := reports0,
    bansIps := ips0, bansUserIds := userIds0, clients := [], usedIds := [],
    sent := [] }

/-- `socket.send(JSON.stringify(msg))` on the socket owned by `uid`. -/
def stateSend (s : ServerState) (uid : String) (m : OutMsg) : ServerState :=
  { s with sent := s.sent ++ [(uid, m)] }

/-- `readyState === WebSocket.OPEN` of the socket owned by `uid` (a socket no
longer tracked is closed). -/
def rsOpenCl (clients : List (String × SockState)) (uid : String) : Bool :=
  match mapGet clients uid with
  | some sk => sk.rsOpen
  | none => false

/-- `readyState === WebSocket.OPEN` read through the state. -/
def rsOpen (s : ServerState) (uid : String) : Bool :=
  rsOpenCl s.clients uid

/-- `socket.close()`: the readyState of `uid`'s socket leaves `OPEN`
immediately; every other socket is untouched. -/
def closeSock : List (String × SockState) → String → List (String × SockState)
  | [], _ => []
  | kv :: rest, uid =>
    (if kv.1 = uid then (kv.1, { kv.2 with rsOpen := false }) else kv) :: closeSock rest uid

/-- `getOnlineCount` = `wss.clients.size`. -/
def getOnlineCount (s : ServerState) : Nat :=
  s.clients.length

/-- `wss.on('connection')`: allocate the identity, record the socket, enforce
bans (a banned connection gets a `banned` notice and is closed before the
handshake), otherwise send the `connected` handshake. -/
def handleConnect (s : ServerState) (uid ip : String) : ServerState :=
  let s1 := { s with clients := mapSet s.clients uid ⟨ip, true⟩,
                     usedIds := uid :: s.usedIds }
  if s1.bansUserIds.contains uid || s1.bansIps.contains ip then
    let s2 := stateSend s1 uid (.banned "You are banned.")
    { s2 with clients := closeSock s2.clients uid }
  else
    stateSend s1 uid (.connected uid)

/-- `findPartner`: no-op when already paired; match with a *different* waiting
occupant whose transport is open; displace a stale occupant; otherwise wait. -/
def findPartner (s : ServerState) (uid : String) : ServerState :=
  if mapHas s.activeConnections uid then s
  else
    match s.waitingUser with
    | some wid =>
      if wid ≠ uid then
        if rsOpen s wid then
          let m := mapSet (mapSet s.activeConnections uid wid) wid uid
          let s1 := { s with activeConnections := m }
          let s2 := stateSend s1 uid (.partnerFound wid)
          let s3 := stateSend s2 wid (.partnerFound uid)
          { s3 with waitingUser := none }
        else
          let s1 := { s with waitingUser := some uid }
          stateSend s1 uid .searching
      else
        let s1 := { s with waitingUser := some uid }
        stateSend s1 uid .searching
    | none =>
      let s1 := { s with waitingUser := some uid }
      stateSend s1 uid .searching

/-- `sendToPartner`: relay a text message, silently dropping it when the sender
is unpaired, the partner's entry is missing, or the partner's transport is not
open. -/
def sendToPartner (s : ServerState) (uid text : String) : ServerState :=
  match mapGet s.activeConnections uid with
  | none => s
  | some pid =>
    if pid = "" then s
    else
      match mapGet s.activeConnections pid with
      | none => s
      | some _ => if rsOpen s pid then stateSend s pid (.message text) else s

/-- `notifyTyping`: relay a typing indicator under the same guards. -/
def notifyTyping (s : ServerState) (uid : String) (isTyping : Bool) : ServerState :=
  match mapGet s.activeConnections uid with
  | none => s
  | some pid =>
    if pid = "" then s
    else
      match mapGet s.activeConnections pid with
      | none => s
      | some _ => if rsOpen s pid then stateSend s pid (.typingMsg isTyping) else s

/-- `forwardToPartner`: relay a signaling payload, attaching `from: userId`. -/
def forwardToPartner (s : ServerState) (uid : String) (kind : SigKind)
    (payload : String) : ServerState :=
  match mapGet s.activeConnections uid with
  | none => s
  | some pid =>
    if pid = "" then s
    else
      match mapGet s.activeConnections pid with
      | none => s
      | some _ =>
        if rsOpen s pid then stateSend s pid (.forwarded kind payload uid) else s

/-- The auto-moderation report synthesized in the `send_message` case:
`reportedId` is the sender's current partner (or null), `reportedIp` the
sender's own socket's ip (`activeConnections.get(userId)?.socket?.ip || null`). -/
def autoReport (s : ServerState) (uid text : String) : Report :=
  { reporterId := uid,
    reportedId := optOrNull (mapGet s.activeConnections uid),
    reportedIp :=
      match mapGet s.activeConnections uid with
      | some _ =>
        match mapGet s.clients uid with
        | some sk => optOrNull (some sk.ip)
        | none => none
      | none => none,
    reason := "Auto moderation: toxic message",
    message := some text }

/-- The `send_message` case: falsy text is dropped; a blocked text warns the
sender and auto-files a report (the report list is capped at 1000 here);
otherwise the text is relayed. -/
def handleSendMessage (cfg : Config) (s : ServerState) (uid text : String) :
    ServerState :=
  if text = "" then s
  else if containsBadWord cfg.badWords text then
    let s1 := stateSend s uid
      (.warning "⚠ Your message contained harmful language and was not sent.")
    let rl := autoReport s1 uid text :: s1.reports
    let rl2 := if rl.length > 1000 then rl.dropLast else rl
    { s1 with reports := rl2 }
  else
    sendToPartner s uid text

/-- The `report_user` case: build the entry with defaults, unshift it, cap the
list at 5000, acknowledge. -/
def handleReportUser (s : ServerState) (uid : String)
    (reportedId reportedIp reason message : Option String) : ServerState :=
  let entry : Report :=
    { reporterId := uid,
      reportedId := optOrNull reportedId,
      reportedIp := optOrNull reportedIp,
      reason := strOrDefault reason "user_report",
      message := optOrNull message }
  let rl := entry :: s.reports
  let rl2 := if rl.length > 5000 then rl.dropLast else rl
  stateSend { s with reports := rl2 } uid .reportAck

/-- One visit of the `wss.clients.forEach` loop of the `ban_user` case: close
(with a `banned` notice) the visited socket if its ip matches and its
readyState is open at the visit. -/
def closeIpStep (i u : String) (s : ServerState) : ServerState :=
  match mapGet s.clients u with
  | some sk =>
    if sk.ip = i && sk.rsOpen then
      let t := stateSend s u (.banned "Your IP was banned.")
      { t with clients := closeSock t.clients u }
    else s
  | none => s

/-- The whole `wss.clients.forEach` loop of the `ban_user` case. -/
def closeIpLoop (i : String) : List String → ServerState → ServerState
  | [], s => s
  | u :: rest, s => closeIpLoop i rest (closeIpStep i u s)

/-- `ban_user`, first stage: `if (uid && !bans.userIds.includes(uid))
bans.userIds.push(uid); if (ip && !bans.ips.includes(ip)) bans.ips.push(ip)`. -/
def banAddSets (s : ServerState) (uidB ipB : Option String) : ServerState :=
  let s1 :=
    match uidB with
    | some u =>
      if s.bansUserIds.contains u then s
      else { s with bansUserIds := s.bansUserIds ++ [u] }
    | none => s
  match ipB with
  | some i =>
    if s1.bansIps.contains i then s1
    else { s1 with bansIps := s1.bansIps ++ [i] }
  | none => s1

/-- `ban_user`, second stage: kill the connection of the banned id if it is
present in `activeConnections` (send `banned`, then `close()`). -/
def banKillUid (s : ServerState) (uidB : Option String) : ServerState :=
  match uidB with
  | some u =>
    if mapHas s.activeConnections u then
      let t := stateSend s u (.banned "You were banned by admin.")
      { t with clients := closeSock t.clients u }
    else s
  | none => s

/-- The authorized body of the `ban_user` case: add the id and ip to the ban
sets (idempotently), acknowledge, kill the connection of the banned id if it is
present in `activeConnections`, then drop every open socket with the banned
ip. -/
def banUserAuthorized (s : ServerState) (uid : String)
    (userIdArg ipArg : Option String) : ServerState :=
  let uidB := optOrNull userIdArg
  let ipB := optOrNull ipArg
  let s3 := stateSend (banAddSets s uidB ipB) uid .banAck
  let s4 := banKillUid s3 uidB
  match ipB with
  | some i => closeIpLoop i (s4.clients.map Prod.fst) s4
  | none => s4

/-- The authorized body of the `unban_user` case: filter the ban sets,
acknowledge; closed connections are not reopened. -/
def unbanUserAuthorized (s : ServerState) (uid : String)
    (userIdArg ipArg : Option String) : ServerState :=
  let uidB := optOrNull userIdArg
  let ipB := optOrNull ipArg
  let s1 :=
    match uidB with
    | some u => { s with bansUserIds := s.bansUserIds.filter (fun x => x != u) }
    | none => s
  let s2 :=
    match ipB with
    | some i => { s1 with bansIps := s1.bansIps.filter (fun x => x != i) }
    | none => s1
  stateSend s2 uid .unbanAck

/-- `disconnectPair`: when paired, notify and remove the partner only if the
partner's entry exists and its transport is open, and always remove the caller;
otherwise release the waiting slot if the caller holds it. -/
def disconnectPair (s : ServerState) (uid : String) : ServerState :=
  match mapGet s.activeConnections uid with
  | some pid =>
    if pid = "" then
      if s.waitingUser = some uid then { s with waitingUser := none } else s
    else
      let s1 :=
        match mapGet s.activeConnections pid with
        | some _ =>
          if rsOpen s pid then
            let t := stateSend s pid .partnerDisconnected
            { t with activeConnections := mapDelete t.activeConnections pid }
          else s
        | none => s
      { s1 with activeConnections := mapDelete s1.activeConnections uid }
  | none =>
    if s.waitingUser = some uid then { s with waitingUser := none } else s

/-- `handleDisconnection` (the `'close'`/`'error'` handler body): release the
waiting slot if held, then tear down the pair. -/
def handleDisconnection (s : ServerState) (uid : String) : ServerState :=
  let s1 := if s.waitingUser = some uid then { s with waitingUser := none } else s
  disconnectPair s1 uid

/-- The `socket.on('message')` dispatch table. -/
def handleClientMsg (cfg : Config) (s : ServerState) (uid : String) :
    ClientMsg → ServerState
  | .findPartnerMsg => findPartner s uid
  | .sendMessage text => handleSendMessage cfg s uid text
  | .typingMsg b => notifyTyping s uid b
  | .disconnectChat => disconnectPair s uid
  | .reportUser rid rip rsn m => handleReportUser s uid rid rip rsn m
  | .getUserCount mk =>
    if mk = cfg.adminKey then stateSend s uid (.userCount (getOnlineCount s)) else s
  | .getReports mk =>
    if mk = cfg.adminKey then stateSend s uid (.reportsMsg s.reports) else s
  | .getBans mk =>
    if mk = cfg.adminKey then stateSend s uid (.bansMsg s.bansIps s.bansUserIds) else s
  | .banUser mk u i =>
    if mk = cfg.adminKey then banUserAuthorized s uid u i else s
  | .unbanUser mk u i =>
    if mk = cfg.adminKey then unbanUserAuthorized s uid u i else s
  | .signaling k payload => forwardToPartner s uid k payload
  | .unknown => s

/-- The observable events: a new connection, a client envelope, the transport
leaving the `OPEN` state, and the `'close'`/`'error'` handler firing (which
also removes the socket from `wss.clients`). -/
inductive Event
  | connect (userId ip : String)
  | clientMsg (userId : String) (msg : ClientMsg)
  | transportClosed (userId : String)
  | closeEvent (userId : String)
deriving DecidableEq, Repr

/-- One step of the server. -/
def step (cfg : Config) (s : ServerState) : Event → ServerState
  | .connect u ip => handleConnect s u ip
  | .clientMsg u m => handleClientMsg cfg s u m
  | .transportClosed u => { s with clients := closeSock s.clients u }
  | .closeEvent u =>
    let s1 := handleDisconnection s u
    { s1 with clients := mapDelete s1.clients u }

/-- Which events can actually occur: `generateId` allocates a fresh, nonempty
identity, and envelopes and transport events belong to a tracked socket. -/
def validEvent (s : ServerState) : Event → Bool
  | .connect u _ => !(s.usedIds.contains u) && u != ""
  | .clientMsg u _ => mapHas s.clients u
  | .transportClosed u => mapHas s.clients u
  | .closeEvent u => mapHas s.clients u

/-- Run a sequence of events. -/
def runEvents (cfg : Config) (s : ServerState) : List Event → ServerState
  | [] => s
  | e :: es => runEvents cfg (step cfg s e) es

/-- Every event of the sequence is valid in the state where it fires. -/
def validTrace (cfg : Config) (s : ServerState) : List Event → Bool
  | [] => true
  | e :: es => validEvent s e && validTrace cfg (step cfg s e) es

/-- Does a pair-teardown event fire while the affected identity's current
partner (if any) still has an open transport?  `disconnectPair` removes both
sides of a pair exactly under this condition. -/
def partnerStillOpen (s : ServerState) (uid : String) : Bool :=
  match mapGet s.activeConnections uid with
  | some pid => rsOpen s pid
  | none => true

/-- The teardown-scheduling discipline under which the symmetry invariant is
restored: `disconnect_chat` envelopes and `'close'`/`'error'` handlers only
fire while the affected identity's partner (if any) is still open. -/
def teardownSafe (s : ServerState) : Event → Bool
  | .clientMsg u .disconnectChat => partnerStillOpen s u
  | .closeEvent u => partnerStillOpen s u
  | _ => true

/-- A valid trace whose teardown events all satisfy `teardownSafe`. -/
def validSyncTrace (cfg : Config) (s : ServerState) : List Event → Bool
  | [] => true
  | e :: es =>
    validEvent s e && teardownSafe s e && validSyncTrace cfg (step cfg s e) es

/-- The spec's symmetry invariant: if A maps to partner B then B maps back
to A. -/
def PairSym (s : ServerState) : Prop :=
  ∀ a b, mapGet s.activeConnections a = some b →
    mapGet s.activeConnections b = some a

/-- The spec's single-occupancy invariant on the waiting slot. -/
def AtMostOneWaiting (s : ServerState) : Prop :=
  ∀ a b, s.waitingUser = some a → s.waitingUser = some b → a = b

/-- The waiting occupant never simultaneously appears in the pair table. -/
def SlotFree (s : ServerState) : Prop :=
  ∀ w, s.waitingUser = some w → mapGet s.activeConnections w = none

/-- Identities appearing in the matchmaking structures are nonempty (they all
come from `generateId`). -/
def NonEmptyIds (s : ServerState) : Prop :=
  (∀ a b, mapGet s.activeConnections a = some b → a ≠ "" ∧ b ≠ "") ∧
  (∀ w, s.waitingUser = some w → w ≠ "") ∧
  (∀ c sk, mapGet s.clients c = some sk → c ≠ "")

/-- The inductive invariant for the matchmaking engine. -/
def Inv (s : ServerState) : Prop :=
  PairSym s ∧ SlotFree s ∧ NonEmptyIds s

/-- A configuration with `ADMIN_KEY=k` and no blocked words. -/
def cfgAdmin : Config :=
  { adminKey := some "k", badWords := [] }

/-- A configuration with `ADMIN_KEY` unset and no blocked words. -/
def cfgNoAdmin : Config :=
  { adminKey := none, badWords := [] }

/-- A configuration with `ADMIN_KEY` unset and one blocked word. -/
def cfgToxic : Config :=
  { adminKey := none, badWords := ["badword"] }

/-- A and B pair; an admin client C bans B by identity (which calls `close()`
on B's socket); A then issues `disconnect_chat` before B's `'close'` event has
fired. -/
def banRaceTrace : List Event :=
  [ .connect "A" "ipA", .connect "B" "ipB",
    .clientMsg "A" .findPartnerMsg, .clientMsg "B" .findPartnerMsg,
    .connect "C" "ipC",
    .clientMsg "C" (.banUser (some "k") (some "B") none),
    .clientMsg "A" .disconnectChat ]

/-- The state reached by `banRaceTrace`. -/
def banRaceFinal : ServerState :=
  runEvents cfgAdmin (initState [] [] []) banRaceTrace

/-- A pairs with B, A leaves the chat, B's transport then closes — every
teardown happens while the affected partner is still open. -/
def pairCycleTrace : List Event :=
  [ .connect "A" "ipA", .connect "B" "ipB",
    .clientMsg "A" .findPartnerMsg, .clientMsg "B" .findPartnerMsg,
    .clientMsg "A" .disconnectChat, .closeEvent "B" ]

/-- A connects and asks for a partner (ending up as the waiting occupant). -/
def dupFindTrace : List Event :=
  [ .connect "A" "ip", .clientMsg "A" .findPartnerMsg ]

/-- The state reached by `dupFindTrace`: A occupies the waiting slot. -/
def dupFindState : ServerState :=
  runEvents cfgNoAdmin (initState [] [] []) dupFindTrace

/-- An arbitrary report used to pre-fill the report log. -/
def seedReport : Report :=
  { reporterId := "x", reportedId := none, reportedIp := none,
    reason := "r", message := none }

/-- A connects and sends a blocked message while the report log already holds
1000 entries. -/
def autoCapTrace : List Event :=
  [ .connect "A" "ip", .clientMsg "A" (.sendMessage "badword") ]

/-- The state reached by `autoCapTrace` from a log of 1000 seed reports. -/
def autoCapState : ServerState :=
  runEvents cfgToxic (initState (List.replicate 1000 seedReport) [] []) autoCapTrace

/-- A connects and sends `get_user_count` with no `adminKey` field, while the
`ADMIN_KEY` environment variable is unset. -/
def noKeyTrace : List Event :=
  [ .connect "A" "ip", .clientMsg "A" (.getUserCount none) ]

/-- The state reached by `noKeyTrace`. -/
def noKeyState : ServerState :=
  runEvents cfgNoAdmin (initState [] [] []) noKeyTrace

/-- A and B connect (B stays unpaired, transport open); A bans B by identity
with the correct admin key. -/
def banUnpairedTrace : List Event :=
  [ .connect "A" "ipA", .connect "B" "ipB",
    .clientMsg "A" (.banUser (some "k") (some "B") none) ]

/-- The state reached by `banUnpairedTrace`. -/
def banUnpairedState : ServerState :=
  runEvents cfgAdmin (initState [] [] []) banUnpairedTrace

/-- W waits, W's transport closes (close event still pending), U connects. -/
def staleSlotTrace : List Event :=
  [ .connect "W" "ip1", .clientMsg "W" .findPartnerMsg,
    .transportClosed "W", .connect "U" "ip2" ]

/-- The state reached by `staleSlotTrace`: the waiting occupant is stale. -/
def staleSlotState : ServerState :=
  runEvents cfgNoAdmin (initState [] [] []) staleSlotTrace

theorem mapGet_mapSet_self {α : Type} (m : List (String × α)) (k : String) (v : α) :
    mapGet (mapSet m k v) k = some v := by
  induction m with
  | nil => simp [mapSet, mapGet]
  | cons kv rest ih =>
    by_cases h : kv.1 = k
    · simp [mapSet, mapGet, h]
    · simpa [mapSet, mapGet, h] using ih

theorem mapGet_mapSet_ne {α : Type} (m : List (String × α)) (k : String) (v : α)
    (k' : String) (h : k' ≠ k) : mapGet (mapSet m k v) k' = mapGet m k' := by
  have hkk : ¬ k = k' := fun hh => h (Eq.symm hh)
  induction m with
  | nil =>
    simp only [mapSet, mapGet]
    rw [if_neg hkk]
  | cons kv rest ih =>
    by_cases hk : kv.1 = k
    · simp only [mapSet, if_pos hk, mapGet]
      rw [if_neg hkk, if_neg (hk ▸ hkk)]
    · simp only [mapSet, if_neg hk, mapGet]
      by_cases hq : kv.1 = k'
      · rw [if_pos hq, if_pos hq]
      · rw [if_neg hq, if_neg hq, ih]

theorem mapDelete_cons_self {α : Type} (kv : String × α) (rest : List (String × α))
    (k : String) (h : kv.1 = k) : mapDelete (kv :: rest) k = mapDelete rest k := by
  simp [mapDelete, List.filter_cons, h]

theorem mapDelete_cons_ne {α : Type} (kv : String × α) (rest : List (String × α))
    (k : String) (h : ¬ kv.1 = k) :
    mapDelete (kv :: rest) k = kv :: mapDelete rest k := by
  simp [mapDelete, List.filter_cons, h]

theorem mapGet_mapDelete_self {α : Type} (m : List (String × α)) (k : String) :
    mapGet (mapDelete m k) k = none := by
  induction m with
  | nil => simp [mapDelete, mapGet]
  | cons kv rest ih =>
    by_cases h : kv.1 = k
    · rw [mapDelete_cons_self kv rest k h]
      exact ih
    · rw [mapDelete_cons_ne kv rest k h]
      simp only [mapGet]
      rw [if_neg h]
      exact ih

theorem mapGet_mapDelete_ne {α : Type} (m : List (String × α)) (k k' : String)
    (h : k' ≠ k) : mapGet (mapDelete m k) k' = mapGet m k' := by
  induction m with
  | nil => simp [mapDelete, mapGet]
  | cons kv rest ih =>
    by_cases hk : kv.1 = k
    · rw [mapDelete_cons_self kv rest k hk]
      simp only [mapGet]
      rw [if_neg (fun hh : kv.1 = k' => h (hh ▸ hk ▸ rfl : k' = k)), ih]
    · rw [mapDelete_cons_ne kv rest k hk]
      simp only [mapGet]
      by_cases hq : kv.1 = k'
      · rw [if_pos hq, if_pos hq]
      · rw [if_neg hq, if_neg hq, ih]

theorem mapGet_closeSock (cl : List (String × SockState)) (u c : String) :
    mapGet (closeSock cl u) c =
      (mapGet cl c).map (fun sk => if c = u then { sk with rsOpen := false } else sk) := by
  induction cl with
  | nil => simp [closeSock, mapGet]
  | cons kv rest ih =>
    obtain ⟨a, sk⟩ := kv
    simp only [closeSock]
    by_cases hu : a = u
    · rw [if_pos hu]
      simp only [mapGet]
      by_cases hc : a = c
      · have hcu : c = u := by rw [← hc, hu]
        rw [if_pos hc, if_pos hc, Option.map_some']
        rw [if_pos hcu]
      · rw [if_neg hc, if_neg hc, ih]
    · rw [if_neg hu]
      simp only [mapGet]
      by_cases hc : a = c
      · have hcu : ¬ c = u := fun hh => hu (hc.trans hh)
        rw [if_pos hc, if_pos hc, Option.map_some']
        rw [if_neg hcu]
      · rw [if_neg hc, if_neg hc, ih]

theorem rsOpenCl_closeSock (cl : List (String × SockState)) (u c : String) :
    rsOpenCl (closeSock cl u) c = if c = u then false else rsOpenCl cl c := by
  unfold rsOpenCl
  rw [mapGet_closeSock]
  by_cases hc : c = u
  · cases mapGet cl c <;> simp [hc]
  · cases mapGet cl c <;> simp [hc]

theorem rsOpenCl_mapSet (cl : List (String × SockState)) (u : String) (sk : SockState)
    (c : String) : rsOpenCl (mapSet cl u sk) c = if c = u then sk.rsOpen else rsOpenCl cl c := by
  unfold rsOpenCl
  by_cases hc : c = u
  · rw [hc, mapGet_mapSet_self]
    simp
  · rw [mapGet_mapSet_ne _ _ _ _ hc]
    simp [hc]

theorem rsOpenCl_mapDelete (cl : List (String × SockState)) (u c : String) :
    rsOpenCl (mapDelete cl u) c = if c = u then false else rsOpenCl cl c := by
  unfold rsOpenCl
  by_cases hc : c = u
  · rw [hc, mapGet_mapDelete_self]; simp
  · rw [mapGet_mapDelete_ne _ _ _ hc]
    simp [hc]

/-- Every state has at most one waiting occupant: the slot is one variable. -/
theorem atMostOneWaiting_always (s : ServerState) : AtMostOneWaiting s := by
  intro a b ha hb
  rw [ha] at hb
  exact Option.some.inj hb

/-- The invariant only reads the pair table, the slot, and the client keys. -/
theorem inv_ext (s s' : ServerState)
    (ha : s'.activeConnections = s.activeConnections)
    (hw : s'.waitingUser = s.waitingUser)
    (hc : ∀ c, (mapGet s'.clients c).isSome → (mapGet s.clients c).isSome)
    (h : Inv s) : Inv s' := by
  obtain ⟨hp, hf, hne⟩ := h
  refine ⟨?_, ?_, ?_, ?_, ?_⟩
  · intro a b hab
    rw [ha] at hab ⊢
    exact hp a b hab
  · intro w hww
    rw [hw] at hww
    rw [ha]
    exact hf w hww
  · intro a b hab
    rw [ha] at hab
    exact hne.1 a b hab
  · intro w hww
    rw [hw] at hww
    exact hne.2.1 w hww
  · intro c sk hcs
    have : (mapGet s.clients c).isSome := hc c (by rw [hcs]; rfl)
    obtain ⟨sk', hsk'⟩ := Option.isSome_iff_exists.mp this
    exact hne.2.2 c sk' hsk'

theorem mapHas_false_iff {α : Type} (m : List (String × α)) (k : String) :
    mapHas m k = false ↔ mapGet m k = none := by
  unfold mapHas
  cases mapGet m k <;> simp

theorem mapGet_mapDelete_of_none {α : Type} (m : List (String × α)) (k w : String)
    (h : mapGet m w = none) : mapGet (mapDelete m k) w = none := by
  by_cases hw : w = k
  · rw [hw, mapGet_mapDelete_self]
  · rw [mapGet_mapDelete_ne _ _ _ hw, h]

theorem mapGet_isSome_closeSock (cl : List (String × SockState)) (u c : String) :
    (mapGet (closeSock cl u) c).isSome = (mapGet cl c).isSome := by
  rw [mapGet_closeSock]
  cases mapGet cl c <;> rfl

theorem sendToPartner_core (s : ServerState) (u t : String) :
    (sendToPartner s u t).activeConnections = s.activeConnections ∧
    (sendToPartner s u t).waitingUser = s.waitingUser ∧
    (sendToPartner s u t).clients = s.clients := by
  unfold sendToPartner
  repeat' split
  all_goals exact ⟨rfl, rfl, rfl⟩

theorem notifyTyping_core (s : ServerState) (u : String) (b : Bool) :
    (notifyTyping s u b).activeConnections = s.activeConnections ∧
    (notifyTyping s u b).waitingUser = s.waitingUser ∧
    (notifyTyping s u b).clients = s.clients := by
  unfold notifyTyping
  repeat' split
  all_goals exact ⟨rfl, rfl, rfl⟩

theorem forwardToPartner_core (s : ServerState) (u : String) (k : SigKind) (p : String) :
    (forwardToPartner s u k p).activeConnections = s.activeConnections ∧
    (forwardToPartner s u k p).waitingUser = s.waitingUser ∧
    (forwardToPartner s u k p).clients = s.clients := by
  unfold forwardToPartner
  repeat' split
  all_goals exact ⟨rfl, rfl, rfl⟩

theorem handleSendMessage_core (cfg : Config) (s : ServerState) (u t : String) :
    (handleSendMessage cfg s u t).activeConnections = s.activeConnections ∧
    (handleSendMessage cfg s u t).waitingUser = s.waitingUser ∧
    (handleSendMessage cfg s u t).clients = s.clients := by
  unfold handleSendMessage
  by_cases h1 : t = ""
  · rw [if_pos h1]
    exact ⟨rfl, rfl, rfl⟩
  · rw [if_neg h1]
    by_cases h2 : containsBadWord cfg.badWords t = true
    · rw [if_pos h2]
      exact ⟨rfl, rfl, rfl⟩
    · rw [if_neg h2]
      exact sendToPartner_core s u t

theorem handleReportUser_core (s : ServerState) (u : String)
    (a b c d : Option String) :
    (handleReportUser s u a b c d).activeConnections = s.activeConnections ∧
    (handleReportUser s u a b c d).waitingUser = s.waitingUser ∧
    (handleReportUser s u a b c d).clients = s.clients :=
  ⟨rfl, rfl, rfl⟩

theorem unbanUserAuthorized_core (s : ServerState) (u : String)
    (a b : Option String) :
    (unbanUserAuthorized s u a b).activeConnections = s.activeConnections ∧
    (unbanUserAuthorized s u a b).waitingUser = s.waitingUser ∧
    (unbanUserAuthorized s u a b).clients = s.clients := by
  unfold unbanUserAuthorized
  cases optOrNull a <;> cases optOrNull b <;> exact ⟨rfl, rfl, rfl⟩

theorem closeIpStep_core (i u : String) (s : ServerState) :
    (closeIpStep i u s).activeConnections = s.activeConnections ∧
    (closeIpStep i u s).waitingUser = s.waitingUser ∧
    (∀ c, (mapGet (closeIpStep i u s).clients c).isSome = (mapGet s.clients c).isSome) ∧
    (closeIpStep i u s).reports = s.reports ∧
    (closeIpStep i u s).bansIps = s.bansIps ∧
    (closeIpStep i u s).bansUserIds = s.bansUserIds := by
  unfold closeIpStep
  split
  · split
    · exact ⟨rfl, rfl, fun c => mapGet_isSome_closeSock s.clients u c, rfl, rfl, rfl⟩
    · exact ⟨rfl, rfl, fun c => rfl, rfl, rfl, rfl⟩
  · exact ⟨rfl, rfl, fun c => rfl, rfl, rfl, rfl⟩

theorem closeIpLoop_core (i : String) (ks : List String) (s : ServerState) :
    (closeIpLoop i ks s).activeConnections = s.activeConnections ∧
    (closeIpLoop i ks s).waitingUser = s.waitingUser ∧
    (∀ c, (mapGet (closeIpLoop i ks s).clients c).isSome = (mapGet s.clients c).isSome) ∧
    (closeIpLoop i ks s).reports = s.reports ∧
    (closeIpLoop i ks s).bansIps = s.bansIps ∧
    (closeIpLoop i ks s).bansUserIds = s.bansUserIds := by
  induction ks generalizing s with
  | nil => exact ⟨rfl, rfl, fun c => rfl, rfl, rfl, rfl⟩
  | cons u rest ih =>
    obtain ⟨h1, h2, h3, h4, h5, h6⟩ := closeIpStep_core i u s
    obtain ⟨g1, g2, g3, g4, g5, g6⟩ := ih (closeIpStep i u s)
    exact ⟨g1.trans h1, g2.trans h2, fun c => (g3 c).trans (h3 c),
           g4.trans h4, g5.trans h5, g6.trans h6⟩

theorem banAddSets_core (s : ServerState) (uidB ipB : Option String) :
    (banAddSets s uidB ipB).activeConnections = s.activeConnections ∧
    (banAddSets s uidB ipB).waitingUser = s.waitingUser ∧
    (banAddSets s uidB ipB).clients = s.clients ∧
    (banAddSets s uidB ipB).reports = s.reports ∧
    (banAddSets s uidB ipB).sent = s.sent := by
  unfold banAddSets
  cases uidB <;> cases ipB <;> dsimp only <;> repeat' split
  all_goals exact ⟨rfl, rfl, rfl, rfl, rfl⟩

theorem banKillUid_core (s : ServerState) (uidB : Option String) :
    (banKillUid s uidB).activeConnections = s.activeConnections ∧
    (banKillUid s uidB).waitingUser = s.waitingUser ∧
    (∀ c, (mapGet (banKillUid s uidB).clients c).isSome = (mapGet s.clients c).isSome) ∧
    (banKillUid s uidB).reports = s.reports ∧
    (banKillUid s uidB).bansIps = s.bansIps ∧
    (banKillUid s uidB).bansUserIds = s.bansUserIds := by
  unfold banKillUid
  cases uidB with
  | none => exact ⟨rfl, rfl, fun c => rfl, rfl, rfl, rfl⟩
  | some u =>
    dsimp only
    by_cases h : mapHas s.activeConnections u = true
    · rw [if_pos h]
      exact ⟨rfl, rfl, fun c => mapGet_isSome_closeSock s.clients u c, rfl, rfl, rfl⟩
    · rw [if_neg h]
      exact ⟨rfl, rfl, fun c => rfl, rfl, rfl, rfl⟩

theorem banUserAuthorized_core (s : ServerState) (uid : String)
    (a b : Option String) :
    (banUserAuthorized s uid a b).activeConnections = s.activeConnections ∧
    (banUserAuthorized s uid a b).waitingUser = s.waitingUser ∧
    (∀ c, (mapGet (banUserAuthorized s uid a b).clients c).isSome =
      (mapGet s.clients c).isSome) := by
  unfold banUserAuthorized
  cases hi : optOrNull b with
  | none =>
    dsimp only
    obtain ⟨a1, a2, a3, _, _⟩ := banAddSets_core s (optOrNull a) none
    obtain ⟨k1, k2, k3, _, _, _⟩ :=
      banKillUid_core (stateSend (banAddSets s (optOrNull a) none) uid .banAck)
        (optOrNull a)
    exact ⟨k1.trans a1, k2.trans a2, fun c => (k3 c).trans
      (congrArg Option.isSome (congrArg (fun cl => mapGet cl c) a3))⟩
  | some i =>
    dsimp only
    obtain ⟨a1, a2, a3, _, _⟩ := banAddSets_core s (optOrNull a) (some i)
    obtain ⟨k1, k2, k3, _, _, _⟩ :=
      banKillUid_core (stateSend (banAddSets s (optOrNull a) (some i)) uid .banAck)
        (optOrNull a)
    obtain ⟨g1, g2, g3, _, _, _⟩ := closeIpLoop_core i
      ((banKillUid (stateSend (banAddSets s (optOrNull a) (some i)) uid .banAck)
        (optOrNull a)).clients.map Prod.fst)
      (banKillUid (stateSend (banAddSets s (optOrNull a) (some i)) uid .banAck)
        (optOrNull a))
    exact ⟨g1.trans (k1.trans a1), g2.trans (k2.trans a2),
      fun c => ((g3 c).trans ((k3 c).trans
        (congrArg Option.isSome (congrArg (fun cl => mapGet cl c) a3))))⟩

/-- Creating a pair between the (unkeyed) requester and the (unkeyed) waiting
occupant keeps the table symmetric. -/
theorem pairSym_pairing (m : List (String × String)) (u wid : String)
    (hne : wid ≠ u) (hgu : mapGet m u = none) (hgw : mapGet m wid = none)
    (hp : ∀ a b, mapGet m a = some b → mapGet m b = some a) :
    ∀ a b, mapGet (mapSet (mapSet m u wid) wid u) a = some b →
      mapGet (mapSet (mapSet m u wid) wid u) b = some a := by
  intro a b hab
  by_cases haw : a = wid
  · rw [haw, mapGet_mapSet_self] at hab
    have hb : b = u := (Option.some.inj hab).symm
    rw [hb, haw]
    rw [mapGet_mapSet_ne _ _ _ _ (fun hh : u = wid => hne hh.symm),
      mapGet_mapSet_self]
  · by_cases hau : a = u
    · have huw2 : ¬ u = wid := by
        intro hh
        rw [← hau] at hh
        exact haw hh
      rw [hau, mapGet_mapSet_ne _ _ _ _ huw2, mapGet_mapSet_self] at hab
      have hb : b = wid := (Option.some.inj hab).symm
      rw [hb, hau, mapGet_mapSet_self]
    · rw [mapGet_mapSet_ne _ _ _ _ haw, mapGet_mapSet_ne _ _ _ _ hau] at hab
      have hba := hp a b hab
      have hbw : b ≠ wid := by
        intro hh
        rw [hh] at hba
        rw [hgw] at hba
        exact Option.noConfusion hba
      have hbu : b ≠ u := by
        intro hh
        rw [hh] at hba
        rw [hgu] at hba
        exact Option.noConfusion hba
      rw [mapGet_mapSet_ne _ _ _ _ hbw, mapGet_mapSet_ne _ _ _ _ hbu]
      exact hba

/-- Creating a pair keeps all table identities nonempty. -/
theorem nonEmpty_pairing (m : List (String × String)) (u wid : String)
    (hu : u ≠ "") (hw : wid ≠ "")
    (hne : ∀ a b, mapGet m a = some b → a ≠ "" ∧ b ≠ "") :
    ∀ a b, mapGet (mapSet (mapSet m u wid) wid u) a = some b → a ≠ "" ∧ b ≠ "" := by
  intro a b hab
  by_cases haw : a = wid
  · rw [haw, mapGet_mapSet_self] at hab
    have hb : b = u := (Option.some.inj hab).symm
    refine ⟨?_, ?_⟩
    · rw [haw]
      exact hw
    · rw [hb]
      exact hu
  · by_cases hau : a = u
    · have huw2 : ¬ u = wid := by
        intro hh
        rw [← hau] at hh
        exact haw hh
      rw [hau, mapGet_mapSet_ne _ _ _ _ huw2, mapGet_mapSet_self] at hab
      have hb : b = wid := (Option.some.inj hab).symm
      refine ⟨?_, ?_⟩
      · rw [hau]
        exact hu
      · rw [hb]
        exact hw
    · rw [mapGet_mapSet_ne _ _ _ _ haw, mapGet_mapSet_ne _ _ _ _ hau] at hab
      exact hne a b hab

/-- Deleting both members of a (reciprocated) pair keeps the table symmetric. -/
theorem pairSym_deletePair (m : List (String × String)) (u pid : String)
    (hup : mapGet m u = some pid)
    (hp : ∀ a b, mapGet m a = some b → mapGet m b = some a) :
    ∀ a b, mapGet (mapDelete (mapDelete m pid) u) a = some b →
      mapGet (mapDelete (mapDelete m pid) u) b = some a := by
  intro a b hab
  by_cases hau : a = u
  · subst hau
    rw [mapGet_mapDelete_self] at hab
    exact Option.noConfusion hab
  · rw [mapGet_mapDelete_ne _ _ _ hau] at hab
    by_cases hap : a = pid
    · subst hap
      rw [mapGet_mapDelete_self] at hab
      exact Option.noConfusion hab
    · rw [mapGet_mapDelete_ne _ _ _ hap] at hab
      have hba := hp a b hab
      have hbu : b ≠ u := by
        intro hh
        subst hh
        rw [hup] at hba
        exact hap (Option.some.inj hba).symm
      have hbp : b ≠ pid := by
        intro hh
        subst hh
        have hpu : mapGet m b = some u := hp u b hup
        rw [hpu] at hba
        exact hau (Option.some.inj hba).symm
      rw [mapGet_mapDelete_ne _ _ _ hbu, mapGet_mapDelete_ne _ _ _ hbp]
      exact hba

/-- Entries surviving a pair deletion were entries before. -/
theorem mapGet_deletePair_sub (m : List (String × String)) (u pid a : String)
    (b : String) (hab : mapGet (mapDelete (mapDelete m pid) u) a = some b) :
    mapGet m a = some b := by
  by_cases hau : a = u
  · subst hau
    rw [mapGet_mapDelete_self] at hab
    exact Option.noConfusion hab
  · rw [mapGet_mapDelete_ne _ _ _ hau] at hab
    by_cases hap : a = pid
    · subst hap
      rw [mapGet_mapDelete_self] at hab
      exact Option.noConfusion hab
    · rw [mapGet_mapDelete_ne _ _ _ hap] at hab
      exact hab

/-- `findPartner` preserves the invariant. -/
theorem inv_findPartner (s : ServerState) (u : String) (hu : u ≠ "")
    (h : Inv s) : Inv (findPartner s u) := by
  obtain ⟨hp, hf, hne1, hne2, hne3⟩ := h
  unfold findPartner
  by_cases hhas : mapHas s.activeConnections u = true
  · rw [if_pos hhas]
    exact ⟨hp, hf, hne1, hne2, hne3⟩
  · rw [if_neg hhas]
    have hgu : mapGet s.activeConnections u = none := by
      rw [← mapHas_false_iff]
      exact Bool.not_eq_true _ ▸ (Bool.eq_false_iff.mpr (fun hh => hhas hh))
    cases hw : s.waitingUser with
    | none =>
      dsimp only
      refine ⟨fun a b hab => hp a b hab, ?_, fun a b hab => hne1 a b hab, ?_,
        fun c sk hcs => hne3 c sk hcs⟩
      · intro w hww
        have hwq : some u = some w := hww
        rw [← Option.some.inj hwq]
        exact hgu
      · intro w hww
        have hwq : some u = some w := hww
        rw [← Option.some.inj hwq]
        exact hu
    | some wid =>
      dsimp only
      by_cases hwu : wid ≠ u
      · rw [if_pos hwu]
        by_cases hrs : rsOpen s wid = true
        · rw [if_pos hrs]
          have hgw : mapGet s.activeConnections wid = none := hf wid hw
          have hwne : wid ≠ "" := hne2 wid hw
          refine ⟨?_, ?_, ?_, ?_, fun c sk hcs => hne3 c sk hcs⟩
          · intro a b hab
            exact pairSym_pairing s.activeConnections u wid hwu hgu hgw hp a b hab
          · intro w hww
            exact Option.noConfusion hww
          · intro a b hab
            exact nonEmpty_pairing s.activeConnections u wid hu hwne hne1 a b hab
          · intro w hww
            exact Option.noConfusion hww
        · rw [if_neg hrs]
          refine ⟨fun a b hab => hp a b hab, ?_, fun a b hab => hne1 a b hab, ?_,
            fun c sk hcs => hne3 c sk hcs⟩
          · intro w hww
            have hwq : some u = some w := hww
            rw [← Option.some.inj hwq]
            exact hgu
          · intro w hww
            have hwq : some u = some w := hww
            rw [← Option.some.inj hwq]
            exact hu
      · rw [if_neg hwu]
        refine ⟨fun a b hab => hp a b hab, ?_, fun a b hab => hne1 a b hab, ?_,
          fun c sk hcs => hne3 c sk hcs⟩
        · intro w hww
          have hwq : some u = some w := hww
          rw [← Option.some.inj hwq]
          exact hgu
        · intro w hww
          have hwq : some u = some w := hww
          rw [← Option.some.inj hwq]
          exact hu

/-- `disconnectPair` preserves the invariant whenever the caller's partner (if
any) still has an open transport. -/
theorem inv_disconnectPair (s : ServerState) (u : String)
    (ht : partnerStillOpen s u = true) (h : Inv s) : Inv (disconnectPair s u) := by
  obtain ⟨hp, hf, hne1, hne2, hne3⟩ := h
  unfold disconnectPair
  cases hgu : mapGet s.activeConnections u with
  | none =>
    by_cases hwu : s.waitingUser = some u
    · rw [if_pos hwu]
      exact ⟨fun a b hab => hp a b hab, fun w hww => Option.noConfusion hww,
        fun a b hab => hne1 a b hab, fun w hww => Option.noConfusion hww,
        fun c sk hcs => hne3 c sk hcs⟩
    · rw [if_neg hwu]
      exact ⟨hp, hf, hne1, hne2, hne3⟩
  | some pid =>
    dsimp only
    have hpidne : ¬ pid = "" := (hne1 u pid hgu).2
    rw [if_neg hpidne]
    have hgp : mapGet s.activeConnections pid = some u := hp u pid hgu
    rw [hgp]
    dsimp only
    have hrs : rsOpen s pid = true := by
      unfold partnerStillOpen at ht
      rw [hgu] at ht
      exact ht
    rw [if_pos hrs]
    dsimp only
    refine ⟨?_, ?_, ?_, fun w hww => hne2 w hww, fun c sk hcs => hne3 c sk hcs⟩
    · intro a b hab
      exact pairSym_deletePair s.activeConnections u pid hgu hp a b hab
    · intro w hww
      have hgw : mapGet s.activeConnections w = none := hf w hww
      exact mapGet_mapDelete_of_none _ _ _ (mapGet_mapDelete_of_none _ _ _ hgw)
    · intro a b hab
      exact hne1 a b (mapGet_deletePair_sub s.activeConnections u pid a b hab)

/-- Clearing the waiting slot preserves the invariant. -/
theorem inv_clearSlot (s : ServerState) (u : String) (h : Inv s) :
    Inv (if s.waitingUser = some u then { s with waitingUser := none } else s) := by
  obtain ⟨hp, hf, hne1, hne2, hne3⟩ := h
  by_cases hwu : s.waitingUser = some u
  · rw [if_pos hwu]
    exact ⟨fun a b hab => hp a b hab, fun w hww => Option.noConfusion hww,
      fun a b hab => hne1 a b hab, fun w hww => Option.noConfusion hww,
      fun c sk hcs => hne3 c sk hcs⟩
  · rw [if_neg hwu]
    exact ⟨hp, hf, hne1, hne2, hne3⟩

/-- `handleDisconnection` preserves the invariant whenever the affected
identity's partner (if any) still has an open transport. -/
theorem inv_handleDisconnection (s : ServerState) (u : String)
    (ht : partnerStillOpen s u = true) (h : Inv s) :
    Inv (handleDisconnection s u) := by
  unfold handleDisconnection
  have h1 := inv_clearSlot s u h
  by_cases hwu : s.waitingUser = some u
  · rw [if_pos hwu] at h1 ⊢
    refine inv_disconnectPair _ u ?_ h1
    exact ht
  · rw [if_neg hwu] at h1 ⊢
    exact inv_disconnectPair s u ht h1

/-- `handleConnect` preserves the invariant for a nonempty fresh identity. -/
theorem inv_handleConnect (s : ServerState) (u ip : String) (hu : u ≠ "")
    (h : Inv s) : Inv (handleConnect s u ip) := by
  obtain ⟨hp, hf, hne1, hne2, hne3⟩ := h
  have hcl : ∀ c sk, mapGet (mapSet s.clients u ⟨ip, true⟩) c = some sk → c ≠ "" := by
    intro c sk hcs
    by_cases hcu : c = u
    · rw [hcu]
      exact hu
    · rw [mapGet_mapSet_ne _ _ _ _ hcu] at hcs
      exact hne3 c sk hcs
  unfold handleConnect
  by_cases hb : (s.bansUserIds.contains u || s.bansIps.contains ip) = true
  · rw [if_pos hb]
    refine ⟨fun a b hab => hp a b hab, fun w hww => hf w hww,
      fun a b hab => hne1 a b hab, fun w hww => hne2 w hww, ?_⟩
    intro c sk hcs
    have hsome : (mapGet (closeSock (mapSet s.clients u ⟨ip, true⟩) u) c).isSome :=
      Option.isSome_iff_exists.mpr ⟨sk, hcs⟩
    rw [mapGet_isSome_closeSock] at hsome
    obtain ⟨sk', hsk'⟩ := Option.isSome_iff_exists.mp hsome
    exact hcl c sk' hsk'
  · rw [if_neg hb]
    exact ⟨fun a b hab => hp a b hab, fun w hww => hf w hww,
      fun a b hab => hne1 a b hab, fun w hww => hne2 w hww,
      fun c sk hcs => hcl c sk hcs⟩

/-- The message dispatcher preserves the invariant (teardown-safe events). -/
theorem inv_handleClientMsg (cfg : Config) (s : ServerState) (u : String)
    (m : ClientMsg) (hu : u ≠ "")
    (ht : teardownSafe s (.clientMsg u m) = true) (h : Inv s) :
    Inv (handleClientMsg cfg s u m) := by
  cases m with
  | findPartnerMsg => exact inv_findPartner s u hu h
  | sendMessage t =>
    show Inv (handleSendMessage cfg s u t)
    obtain ⟨c1, c2, c3⟩ := handleSendMessage_core cfg s u t
    refine inv_ext _ _ c1 c2 ?_ h
    intro c hc
    rw [c3] at hc
    exact hc
  | typingMsg b =>
    show Inv (notifyTyping s u b)
    obtain ⟨c1, c2, c3⟩ := notifyTyping_core s u b
    refine inv_ext _ _ c1 c2 ?_ h
    intro c hc
    rw [c3] at hc
    exact hc
  | disconnectChat =>
    have hps : partnerStillOpen s u = true := ht
    exact inv_disconnectPair s u hps h
  | reportUser a b q d =>
    show Inv (handleReportUser s u a b q d)
    obtain ⟨c1, c2, c3⟩ := handleReportUser_core s u a b q d
    refine inv_ext _ _ c1 c2 ?_ h
    intro c hc
    rw [c3] at hc
    exact hc
  | getUserCount mk =>
    unfold handleClientMsg
    dsimp only
    by_cases hk : mk = cfg.adminKey
    · rw [if_pos hk]
      exact inv_ext s _ rfl rfl (fun c hc => hc) h
    · rw [if_neg hk]
      exact h
  | getReports mk =>
    unfold handleClientMsg
    dsimp only
    by_cases hk : mk = cfg.adminKey
    · rw [if_pos hk]
      exact inv_ext s _ rfl rfl (fun c hc => hc) h
    · rw [if_neg hk]
      exact h
  | getBans mk =>
    unfold handleClientMsg
    dsimp only
    by_cases hk : mk = cfg.adminKey
    · rw [if_pos hk]
      exact inv_ext s _ rfl rfl (fun c hc => hc) h
    · rw [if_neg hk]
      exact h
  | banUser mk a b =>
    unfold handleClientMsg
    dsimp only
    by_cases hk : mk = cfg.adminKey
    · rw [if_pos hk]
      obtain ⟨c1, c2, c3⟩ := banUserAuthorized_core s u a b
      refine inv_ext _ _ c1 c2 ?_ h
      intro c hc
      rw [c3 c] at hc
      exact hc
    · rw [if_neg hk]
      exact h
  | unbanUser mk a b =>
    unfold handleClientMsg
    dsimp only
    by_cases hk : mk = cfg.adminKey
    · rw [if_pos hk]
      obtain ⟨c1, c2, c3⟩ := unbanUserAuthorized_core s u a b
      refine inv_ext _ _ c1 c2 ?_ h
      intro c hc
      rw [c3] at hc
      exact hc
    · rw [if_neg hk]
      exact h
  | signaling k p =>
    show Inv (forwardToPartner s u k p)
    obtain ⟨c1, c2, c3⟩ := forwardToPartner_core s u k p
    refine inv_ext _ _ c1 c2 ?_ h
    intro c hc
    rw [c3] at hc
    exact hc
  | unknown => exact h

/-- One valid, teardown-safe step preserves the invariant. -/
theorem inv_step (cfg : Config) (s : ServerState) (e : Event)
    (hv : validEvent s e = true) (ht : teardownSafe s e = true) (h : Inv s) :
    Inv (step cfg s e) := by
  cases e with
  | connect u ip =>
    have hu : u ≠ "" := by
      unfold validEvent at hv
      obtain ⟨_, h2⟩ := (Bool.and_eq_true _ _).mp hv
      exact bne_iff_ne.mp h2
    exact inv_handleConnect s u ip hu h
  | clientMsg u m =>
    have humem : mapHas s.clients u = true := hv
    have hu : u ≠ "" := by
      unfold mapHas at humem
      obtain ⟨sk, hsk⟩ := Option.isSome_iff_exists.mp humem
      exact h.2.2.2.2 u sk hsk
    exact inv_handleClientMsg cfg s u m hu ht h
  | transportClosed u =>
    show Inv { s with clients := closeSock s.clients u }
    refine inv_ext s _ rfl rfl ?_ h
    intro c hc
    have hc2 : (mapGet (closeSock s.clients u) c).isSome = true := hc
    rw [mapGet_isSome_closeSock] at hc2
    exact hc2
  | closeEvent u =>
    have hps : partnerStillOpen s u = true := ht
    have hd := inv_handleDisconnection s u hps h
    show Inv { handleDisconnection s u with
      clients := mapDelete (handleDisconnection s u).clients u }
    refine inv_ext (handleDisconnection s u) _ rfl rfl ?_ hd
    intro c hc
    have hc2 : (mapGet (mapDelete (handleDisconnection s u).clients u) c).isSome = true := hc
    by_cases hcu : c = u
    · rw [hcu, mapGet_mapDelete_self] at hc2
      exact absurd hc2 (by simp)
    · rw [mapGet_mapDelete_ne _ _ _ hcu] at hc2
      exact hc2

/-- The initial state satisfies the invariant. -/
theorem inv_initState (r0 : List Report) (i0 u0 : List String) :
    Inv (initState r0 i0 u0) :=
  ⟨fun _ _ hab => Option.noConfusion hab,
   fun _ hww => Option.noConfusion hww,
   fun _ _ hab => Option.noConfusion hab,
   fun _ hww => Option.noConfusion hww,
   fun _ _ hcs => Option.noConfusion hcs⟩

/-- The invariant holds after any valid, teardown-safe trace. -/
theorem inv_runSync (cfg : Config) : ∀ (es : List Event) (s : ServerState),
    Inv s → validSyncTrace cfg s es = true → Inv (runEvents cfg s es) := by
  intro es
  induction es with
  | nil =>
    intro s h _
    exact h
  | cons e rest ih =>
    intro s h hv
    unfold validSyncTrace at hv
    obtain ⟨h12, h3⟩ := (Bool.and_eq_true _ _).mp hv
    obtain ⟨h1, h2⟩ := (Bool.and_eq_true _ _).mp h12
    unfold runEvents
    exact ih (step cfg s e) (inv_step cfg s e h1 h2 h) h3

/-- C1: as stated — the pair-table symmetry can break.  After `banRaceTrace`
(a valid event sequence of connections, find_partner, ban_user and
disconnect_chat), B still maps to partner A while A has no entry:
`disconnectPair` removed only the caller's side because B's transport was no
longer open. -/
theorem c1_counterexample :
    validTrace cfgAdmin (initState [] [] []) banRaceTrace = true ∧
    mapGet banRaceFinal.activeConnections "B" = some "A" ∧
    mapGet banRaceFinal.activeConnections "A" = none ∧
    ¬ PairSym banRaceFinal := by
  refine ⟨by decide, by decide, by decide, ?_⟩
  intro hsym
  have h1 := hsym "B" "A" (by decide)
  have h2 : mapGet banRaceFinal.activeConnections "A" = none := by decide
  rw [h1] at h2
  exact Option.noConfusion h2

/-- C1 (amended): at most one identity occupies the waiting slot at every
instant; and provided every `disconnect_chat` and close/error event fires
while the affected identity's current partner (if any) still has an open
transport, the pair table is symmetric at every instant and the waiting
occupant is never simultaneously paired.  (When the partner's transport is
already closed, `disconnectPair` removes only the caller's entry — the
counterexample.) -/
theorem c1_amended (cfg : Config) (r0 : List Report) (i0 u0 : List String)
    (es : List Event)
    (h : validSyncTrace cfg (initState r0 i0 u0) es = true) :
    AtMostOneWaiting (runEvents cfg (initState r0 i0 u0) es) ∧
    PairSym (runEvents cfg (initState r0 i0 u0) es) ∧
    SlotFree (runEvents cfg (initState r0 i0 u0) es) :=
  ⟨atMostOneWaiting_always _,
   (inv_runSync cfg es _ (inv_initState r0 i0 u0) h).1,
   (inv_runSync cfg es _ (inv_initState r0 i0 u0) h).2.1⟩

/-- Witness for `c1_amended` on a concrete teardown-safe trace. -/
theorem c1_amended_witness :
    validSyncTrace cfgNoAdmin (initState [] [] []) pairCycleTrace = true ∧
    (AtMostOneWaiting (runEvents cfgNoAdmin (initState [] [] []) pairCycleTrace) ∧
     PairSym (runEvents cfgNoAdmin (initState [] [] []) pairCycleTrace) ∧
     SlotFree (runEvents cfgNoAdmin (initState [] [] []) pairCycleTrace)) :=
  ⟨by decide, c1_amended cfgNoAdmin [] [] [] pairCycleTrace (by decide)⟩

theorem containsBadWord_ne_empty (badWords : List String) (text : String)
    (hb : containsBadWord badWords text = true) : text ≠ "" := by
  intro he
  rw [he] at hb
  unfold containsBadWord at hb
  simp at hb

theorem handleSendMessage_blocked (cfg : Config) (s : ServerState)
    (uid text : String) (hb : containsBadWord cfg.badWords text = true) :
    handleSendMessage cfg s uid text =
      { s with
        sent := s.sent ++
          [(uid, .warning "⚠ Your message contained harmful language and was not sent.")],
        reports :=
          if (autoReport s uid text :: s.reports).length > 1000
          then (autoReport s uid text :: s.reports).dropLast
          else autoReport s uid text :: s.reports } := by
  have hne := containsBadWord_ne_empty cfg.badWords text hb
  unfold handleSendMessage
  rw [if_neg hne, if_pos hb]
  rfl

/-- C2: a `send_message` whose text contains a blocked word is never relayed:
the only notification produced is a single `warning` to the sender, exactly one
report (naming the sender's current partner, if any, and the offending text)
is pushed onto the front of the report log, and no other state changes. -/
theorem c2_blocked_message (cfg : Config) (s : ServerState) (uid text : String)
    (hb : containsBadWord cfg.badWords text = true) :
    handleClientMsg cfg s uid (.sendMessage text) =
      { s with
        sent := s.sent ++
          [(uid, .warning "⚠ Your message contained harmful language and was not sent.")],
        reports :=
          if (autoReport s uid text :: s.reports).length > 1000
          then (autoReport s uid text :: s.reports).dropLast
          else autoReport s uid text :: s.reports } ∧
    (autoReport s uid text).reportedId = optOrNull (mapGet s.activeConnections uid) ∧
    (autoReport s uid text).message = some text :=
  ⟨handleSendMessage_blocked cfg s uid text hb, rfl, rfl⟩

/-- Witness for `c2_blocked_message` at a concrete sender and text. -/
theorem c2_blocked_message_witness :
    containsBadWord cfgToxic.badWords "a BadWord!" = true ∧
    (handleClientMsg cfgToxic (initState [] [] []) "A" (.sendMessage "a BadWord!") =
      { initState [] [] [] with
        sent := [("A", .warning "⚠ Your message contained harmful language and was not sent.")],
        reports :=
          if (autoReport (initState [] [] []) "A" "a BadWord!" :: ([] : List Report)).length > 1000
          then (autoReport (initState [] [] []) "A" "a BadWord!" :: ([] : List Report)).dropLast
          else autoReport (initState [] [] []) "A" "a BadWord!" :: ([] : List Report) } ∧
    (autoReport (initState [] [] []) "A" "a BadWord!").reportedId =
      optOrNull (mapGet (initState [] [] []).activeConnections "A") ∧
    (autoReport (initState [] [] []) "A" "a BadWord!").message = some "a BadWord!") :=
  ⟨by decide, c2_blocked_message cfgToxic (initState [] [] []) "A" "a BadWord!" (by decide)⟩

theorem mapHas_ne_true_of_none {α : Type} (m : List (String × α)) (k : String)
    (h : mapGet m k = none) : ¬ mapHas m k = true := by
  intro hh
  rw [mapHas] at hh
  rw [h] at hh
  exact Option.noConfusion ((Option.isSome_iff_exists.mp hh).choose_spec)

theorem findPartner_waits (s : ServerState) (a : String)
    (hw : s.waitingUser = none) (ha : mapGet s.activeConnections a = none) :
    findPartner s a =
      { s with waitingUser := some a, sent := s.sent ++ [(a, .searching)] } := by
  unfold findPartner
  rw [if_neg (mapHas_ne_true_of_none _ _ ha), hw]
  rfl

theorem findPartner_pairs (s : ServerState) (b wid : String)
    (hb : mapGet s.activeConnections b = none)
    (hw : s.waitingUser = some wid) (hne : wid ≠ b)
    (hrs : rsOpen s wid = true) :
    findPartner s b =
      { s with waitingUser := none,
               activeConnections := mapSet (mapSet s.activeConnections b wid) wid b,
               sent := s.sent ++ [(b, .partnerFound wid), (wid, .partnerFound b)] } := by
  unfold findPartner
  rw [if_neg (mapHas_ne_true_of_none _ _ hb), hw]
  try dsimp only
  rw [if_pos hne, if_pos hrs]
  try dsimp only
  simp [stateSend, List.append_assoc]

/-- C3: from a state with an empty waiting slot, A's `find_partner` produces
exactly one `searching` notification to A and parks A in the slot; B's
subsequent `find_partner` (A's transport still open) sends `partner_found`
to both sides, carrying the peer identity and no `from` field, pairs A and B
symmetrically, and empties the slot. -/
theorem c3_two_clients_pair (s : ServerState) (a b : String)
    (hw : s.waitingUser = none)
    (ha : mapGet s.activeConnections a = none)
    (hb : mapGet s.activeConnections b = none)
    (hab : a ≠ b)
    (hopen : rsOpen s a = true) :
    findPartner s a =
      { s with waitingUser := some a, sent := s.sent ++ [(a, .searching)] } ∧
    findPartner (findPartner s a) b =
      { s with waitingUser := none,
               activeConnections := mapSet (mapSet s.activeConnections b a) a b,
               sent := s.sent ++
                 [(a, .searching), (b, .partnerFound a), (a, .partnerFound b)] } ∧
    mapGet (findPartner (findPartner s a) b).activeConnections a = some b ∧
    mapGet (findPartner (findPartner s a) b).activeConnections b = some a ∧
    OutMsg.fromField (.partnerFound a) = none ∧
    OutMsg.fromField (.partnerFound b) = none := by
  have h1 := findPartner_waits s a hw ha
  have h2 : findPartner (findPartner s a) b =
      { s with waitingUser := none,
               activeConnections := mapSet (mapSet s.activeConnections b a) a b,
               sent := s.sent ++
                 [(a, .searching), (b, .partnerFound a), (a, .partnerFound b)] } := by
    rw [h1]
    rw [findPartner_pairs { s with waitingUser := some a, sent := s.sent ++ [(a, OutMsg.searching)] } b a hb rfl hab hopen]
    simp [List.append_assoc]
  refine ⟨h1, h2, ?_, ?_, rfl, rfl⟩
  · rw [h2]
    exact mapGet_mapSet_self _ _ _
  · rw [h2]
    dsimp only
    rw [mapGet_mapSet_ne _ _ _ _ (fun hh : b = a => hab hh.symm)]
    exact mapGet_mapSet_self _ _ _

/-- Witness for `c3_two_clients_pair` on a concrete two-client state. -/
theorem c3_two_clients_pair_witness :
    ((runEvents cfgNoAdmin (initState [] [] [])
        [.connect "A" "ipA", .connect "B" "ipB"]).waitingUser = none ∧
     mapGet (runEvents cfgNoAdmin (initState [] [] [])
        [.connect "A" "ipA", .connect "B" "ipB"]).activeConnections "A" = none ∧
     rsOpen (runEvents cfgNoAdmin (initState [] [] [])
        [.connect "A" "ipA", .connect "B" "ipB"]) "A" = true) ∧
    mapGet (findPartner (findPartner (runEvents cfgNoAdmin (initState [] [] [])
        [.connect "A" "ipA", .connect "B" "ipB"]) "A") "B").activeConnections "A" =
      some "B" :=
  ⟨⟨by decide, by decide, by decide⟩,
   (c3_two_clients_pair (runEvents cfgNoAdmin (initState [] [] [])
      [.connect "A" "ipA", .connect "B" "ipB"]) "A" "B"
      (by decide) (by decide) (by decide) (by decide) (by decide)).2.2.1⟩

/-- C4: as stated — `find_partner` from the current waiting occupant is not a
no-op: the state is otherwise unchanged but a second `searching` notification
is sent to the requester. -/
theorem c4_counterexample :
    dupFindState.waitingUser = some "A" ∧
    mapHas dupFindState.activeConnections "A" = false ∧
    (findPartner dupFindState "A").sent ≠ dupFindState.sent ∧
    (findPartner dupFindState "A").sent =
      dupFindState.sent ++ [("A", .searching)] := by
  exact ⟨by decide, by decide, by decide, by decide⟩

/-- C4 (amended): for an already-paired identity `find_partner` is a complete
no-op; for the identity currently occupying the waiting slot it leaves the
slot, the pair table and all other state unchanged but re-sends one
`searching` notification. -/
theorem c4_amended (s : ServerState) (u : String) :
    (mapHas s.activeConnections u = true → findPartner s u = s) ∧
    (s.waitingUser = some u → mapHas s.activeConnections u = false →
      findPartner s u = { s with sent := s.sent ++ [(u, .searching)] }) := by
  constructor
  · intro hh
    unfold findPartner
    rw [if_pos hh]
  · intro hw hhas
    have hneg : ¬ mapHas s.activeConnections u = true := by
      rw [hhas]
      exact Bool.false_ne_true
    unfold findPartner
    rw [if_neg hneg, hw]
    try dsimp only
    rw [if_neg (fun hh : u ≠ u => hh rfl)]
    try dsimp only
    rw [← hw]
    rfl

/-- Witness for `c4_amended` at the concrete waiting occupant. -/
theorem c4_amended_witness :
    dupFindState.waitingUser = some "A" ∧
    findPartner dupFindState "A" =
      { dupFindState with sent := dupFindState.sent ++ [("A", .searching)] } :=
  ⟨by decide, (c4_amended dupFindState "A").2 (by decide) (by decide)⟩

set_option maxRecDepth 8000 in
/-- C5: as stated — the report log is not governed by a single cap of 5000:
with 1000 entries already logged, an auto-moderation report is appended and the
oldest entry is evicted (the length stays 1000) even though the claimed cap of
5000 is not exceeded. -/
theorem c5_counterexample :
    validTrace cfgToxic (initState (List.replicate 1000 seedReport) [] [])
      autoCapTrace = true ∧
    (initState (List.replicate 1000 seedReport) [] []).reports.length + 1 ≤ 5000 ∧
    autoCapState.reports.length = 1000 := by
  exact ⟨by decide, by decide, by decide⟩

theorem trimmed_length_le (r : Report) (l : List Report) (c : Nat) (hc : c ≤ 5000) :
    (if (r :: l).length > c then (r :: l).dropLast else r :: l).length ≤
      max l.length 5000 := by
  by_cases h : (r :: l).length > c
  · rw [if_pos h, List.length_dropLast, List.length_cons]
    simp
  · rw [if_neg h, List.length_cons]
    rw [List.length_cons] at h
    have h2 : l.length + 1 ≤ c := not_lt.mp h
    exact le_trans (le_trans h2 hc) (le_max_right _ _)

theorem findPartner_reports (s : ServerState) (u : String) :
    (findPartner s u).reports = s.reports := by
  unfold findPartner
  repeat' split
  all_goals rfl

theorem sendToPartner_reports (s : ServerState) (u t : String) :
    (sendToPartner s u t).reports = s.reports := by
  unfold sendToPartner
  repeat' split
  all_goals rfl

theorem notifyTyping_reports (s : ServerState) (u : String) (b : Bool) :
    (notifyTyping s u b).reports = s.reports := by
  unfold notifyTyping
  repeat' split
  all_goals rfl

theorem forwardToPartner_reports (s : ServerState) (u : String) (k : SigKind)
    (p : String) : (forwardToPartner s u k p).reports = s.reports := by
  unfold forwardToPartner
  repeat' split
  all_goals rfl

theorem disconnectPair_reports (s : ServerState) (u : String) :
    (disconnectPair s u).reports = s.reports := by
  unfold disconnectPair
  repeat' split
  all_goals rfl

theorem handleDisconnection_reports (s : ServerState) (u : String) :
    (handleDisconnection s u).reports = s.reports := by
  unfold handleDisconnection
  split
  · exact disconnectPair_reports _ u
  · exact disconnectPair_reports s u

theorem handleConnect_reports (s : ServerState) (u ip : String) :
    (handleConnect s u ip).reports = s.reports := by
  unfold handleConnect
  dsimp only
  split
  · rfl
  · rfl

theorem unbanUserAuthorized_reports (s : ServerState) (uid : String)
    (a b : Option String) : (unbanUserAuthorized s uid a b).reports = s.reports := by
  unfold unbanUserAuthorized
  cases optOrNull a <;> cases optOrNull b <;> rfl

theorem banUserAuthorized_reports (s : ServerState) (uid : String)
    (a b : Option String) : (banUserAuthorized s uid a b).reports = s.reports := by
  unfold banUserAuthorized
  cases hi : optOrNull b with
  | none =>
    dsimp only
    obtain ⟨_, _, _, k4, _, _⟩ :=
      banKillUid_core (stateSend (banAddSets s (optOrNull a) none) uid .banAck)
        (optOrNull a)
    obtain ⟨_, _, _, a4, _⟩ := banAddSets_core s (optOrNull a) none
    exact k4.trans a4
  | some i =>
    dsimp only
    obtain ⟨_, _, _, g4, _, _⟩ := closeIpLoop_core i
      ((banKillUid (stateSend (banAddSets s (optOrNull a) (some i)) uid .banAck)
        (optOrNull a)).clients.map Prod.fst)
      (banKillUid (stateSend (banAddSets s (optOrNull a) (some i)) uid .banAck)
        (optOrNull a))
    obtain ⟨_, _, _, k4, _, _⟩ :=
      banKillUid_core (stateSend (banAddSets s (optOrNull a) (some i)) uid .banAck)
        (optOrNull a)
    obtain ⟨_, _, _, a4, _⟩ := banAddSets_core s (optOrNull a) (some i)
    exact (g4.trans k4).trans a4

theorem reports_length_step (cfg : Config) (s : ServerState) (e : Event) :
    (step cfg s e).reports.length ≤ max s.reports.length 5000 := by
  have hle : s.reports.length ≤ max s.reports.length 5000 := le_max_left _ _
  cases e with
  | connect u ip =>
    show (handleConnect s u ip).reports.length ≤ _
    rw [handleConnect_reports]
    exact hle
  | transportClosed u => exact hle
  | closeEvent u =>
    have h1 : (step cfg s (.closeEvent u)).reports = (handleDisconnection s u).reports := rfl
    rw [h1, handleDisconnection_reports]
    exact hle
  | clientMsg u m =>
    cases m with
    | findPartnerMsg =>
      show (findPartner s u).reports.length ≤ _
      rw [findPartner_reports]
      exact hle
    | sendMessage t =>
      show (handleSendMessage cfg s u t).reports.length ≤ _
      unfold handleSendMessage
      by_cases h1 : t = ""
      · rw [if_pos h1]
        exact hle
      · rw [if_neg h1]
        by_cases h2 : containsBadWord cfg.badWords t = true
        · rw [if_pos h2]
          exact trimmed_length_le _ s.reports 1000 (by omega)
        · rw [if_neg h2]
          rw [sendToPartner_reports]
          exact hle
    | typingMsg b =>
      show (notifyTyping s u b).reports.length ≤ _
      rw [notifyTyping_reports]
      exact hle
    | disconnectChat =>
      show (disconnectPair s u).reports.length ≤ _
      rw [disconnectPair_reports]
      exact hle
    | reportUser a b q d =>
      show (handleReportUser s u a b q d).reports.length ≤ _
      unfold handleReportUser
      exact trimmed_length_le _ s.reports 5000 (by omega)
    | getUserCount mk =>
      show (if mk = cfg.adminKey then _ else s).reports.length ≤ _
      split <;> exact hle
    | getReports mk =>
      show (if mk = cfg.adminKey then _ else s).reports.length ≤ _
      split <;> exact hle
    | getBans mk =>
      show (if mk = cfg.adminKey then _ else s).reports.length ≤ _
      split <;> exact hle
    | banUser mk a b =>
      show (if mk = cfg.adminKey then banUserAuthorized s u a b else s).reports.length ≤ _
      split
      · rw [banUserAuthorized_reports]
        exact hle
      · exact hle
    | unbanUser mk a b =>
      show (if mk = cfg.adminKey then unbanUserAuthorized s u a b else s).reports.length ≤ _
      split
      · rw [unbanUserAuthorized_reports]
        exact hle
      · exact hle
    | signaling k p =>
      show (forwardToPartner s u k p).reports.length ≤ _
      rw [forwardToPartner_reports]
      exact hle
    | unknown => exact hle

theorem reports_length_run (cfg : Config) : ∀ (es : List Event) (s : ServerState),
    (runEvents cfg s es).reports.length ≤ max s.reports.length 5000 := by
  intro es
  induction es with
  | nil =>
    intro s
    exact le_max_left _ _
  | cons e rest ih =>
    intro s
    have h1 := ih (step cfg s e)
    have h2 := reports_length_step cfg s e
    have h3 : max (step cfg s e).reports.length 5000 ≤ max s.reports.length 5000 :=
      max_le h2 (le_max_right _ _)
    exact le_trans h1 h3

/-- C5 (amended): the report log is bounded but by two different caps: after
any event sequence its length never exceeds `max` of its initial length and
5000; a user-submitted report is pushed to the front and evicts exactly the
oldest (last) entry when the length would exceed 5000; an auto-moderation
report does the same but with a cap of 1000. -/
theorem c5_amended (cfg : Config) (r0 : List Report) (i0 u0 : List String)
    (es : List Event) (s : ServerState) (uid text : String)
    (rid rip rsn m : Option String)
    (hb : containsBadWord cfg.badWords text = true) :
    (runEvents cfg (initState r0 i0 u0) es).reports.length ≤ max r0.length 5000 ∧
    (handleClientMsg cfg s uid (.sendMessage text)).reports =
      (if (autoReport s uid text :: s.reports).length > 1000
       then autoReport s uid text :: s.reports.dropLast
       else autoReport s uid text :: s.reports) ∧
    (handleClientMsg cfg s uid (.reportUser rid rip rsn m)).reports =
      (if ({ reporterId := uid, reportedId := optOrNull rid, reportedIp := optOrNull rip, reason := strOrDefault rsn "user_report", message := optOrNull m } :: s.reports : List Report).length > 5000
       then { reporterId := uid, reportedId := optOrNull rid, reportedIp := optOrNull rip, reason := strOrDefault rsn "user_report", message := optOrNull m } :: s.reports.dropLast
       else { reporterId := uid, reportedId := optOrNull rid, reportedIp := optOrNull rip, reason := strOrDefault rsn "user_report", message := optOrNull m } :: s.reports) := by
  refine ⟨reports_length_run cfg es (initState r0 i0 u0), ?_, ?_⟩
  · have hb1 := handleSendMessage_blocked cfg s uid text hb
    have h2 : (handleClientMsg cfg s uid (.sendMessage text)).reports =
        (if (autoReport s uid text :: s.reports).length > 1000
         then (autoReport s uid text :: s.reports).dropLast
         else autoReport s uid text :: s.reports) :=
      congrArg ServerState.reports hb1
    rw [h2]
    by_cases hlen : (autoReport s uid text :: s.reports).length > 1000
    · rw [if_pos hlen, if_pos hlen]
      have hnil : s.reports ≠ [] := by
        intro hn
        rw [hn] at hlen
        simp at hlen
      exact List.dropLast_cons_of_ne_nil hnil
    · rw [if_neg hlen, if_neg hlen]
  · show (handleReportUser s uid rid rip rsn m).reports = _
    unfold handleReportUser
    dsimp only
    by_cases hlen : ({ reporterId := uid, reportedId := optOrNull rid, reportedIp := optOrNull rip, reason := strOrDefault rsn "user_report", message := optOrNull m } :: s.reports : List Report).length > 5000
    · rw [if_pos hlen, if_pos hlen]
      have hnil : s.reports ≠ [] := by
        intro hn
        rw [hn] at hlen
        simp at hlen
      exact List.dropLast_cons_of_ne_nil hnil
    · rw [if_neg hlen, if_neg hlen]
      rfl

/-- Witness for `c5_amended` at a concrete blocked text. -/
theorem c5_amended_witness :
    containsBadWord cfgToxic.badWords "badword" = true ∧
    (handleClientMsg cfgToxic (initState [] [] []) "A" (.sendMessage "badword")).reports =
      (if (autoReport (initState [] [] []) "A" "badword" :: ([] : List Report)).length > 1000
       then autoReport (initState [] [] []) "A" "badword" :: ([] : List Report).dropLast
       else autoReport (initState [] [] []) "A" "badword" :: ([] : List Report)) :=
  ⟨by decide,
   (c5_amended cfgToxic [] [] [] [] (initState [] [] []) "A" "badword"
      none none none none (by decide)).2.1⟩

/-- C6: as stated — with the `ADMIN_KEY` environment variable unset, an
envelope with no `adminKey` at all passes the credential check and receives a
`user_count` response, so "missing credential produces no response" fails. -/
theorem c6_counterexample :
    cfgNoAdmin.adminKey = none ∧
    validTrace cfgNoAdmin (initState [] [] []) noKeyTrace = true ∧
    noKeyState.sent = [("A", .connected "A"), ("A", .userCount 1)] := by
  exact ⟨rfl, by decide, by decide⟩

/-- C6 (amended): for every admin envelope kind, whenever the envelope's
`adminKey` (undefined when absent) differs from the configured `ADMIN_KEY`
value (undefined when unset), the server state is completely unchanged — no
response is sent and nothing is mutated.  In particular this covers every
missing or wrong credential whenever `ADMIN_KEY` is set. -/
theorem c6_amended (cfg : Config) (s : ServerState) (uid : String)
    (mk u i : Option String) (hne : mk ≠ cfg.adminKey) :
    handleClientMsg cfg s uid (.getUserCount mk) = s ∧
    handleClientMsg cfg s uid (.getReports mk) = s ∧
    handleClientMsg cfg s uid (.getBans mk) = s ∧
    handleClientMsg cfg s uid (.banUser mk u i) = s ∧
    handleClientMsg cfg s uid (.unbanUser mk u i) = s := by
  refine ⟨?_, ?_, ?_, ?_, ?_⟩ <;>
    (unfold handleClientMsg; dsimp only; rw [if_neg hne])

/-- Witness for `c6_amended`: a wrong key against a configured `ADMIN_KEY`. -/
theorem c6_amended_witness :
    (some "wrong" : Option String) ≠ cfgAdmin.adminKey ∧
    handleClientMsg cfgAdmin (initState [] [] []) "A" (.getUserCount (some "wrong")) =
      initState [] [] [] :=
  ⟨by decide,
   (c6_amended cfgAdmin (initState [] [] []) "A" (some "wrong") none none
      (by decide)).1⟩

theorem optOrNull_some_ne (x : String) (hx : x ≠ "") :
    optOrNull (some x) = some x := by
  show (if x = "" then none else some x) = some x
  rw [if_neg hx]

theorem closeIpStep_other (i u c : String) (s : ServerState) (hcu : c ≠ u) :
    mapGet (closeIpStep i u s).clients c = mapGet s.clients c := by
  unfold closeIpStep
  split
  · split
    · show mapGet (closeSock s.clients u) c = mapGet s.clients c
      rw [mapGet_closeSock]
      cases mapGet s.clients c <;> simp [hcu]
    · rfl
  · rfl

theorem closeIpStep_post (i u : String) (s : ServerState) (sk' : SockState)
    (hres : mapGet (closeIpStep i u s).clients u = some sk')
    (hip : sk'.ip = i) : sk'.rsOpen = false := by
  unfold closeIpStep at hres
  cases hg : mapGet s.clients u with
  | none =>
    rw [hg] at hres
    dsimp only at hres
    rw [hg] at hres
    exact Option.noConfusion hres
  | some sk =>
    rw [hg] at hres
    dsimp only at hres
    by_cases hc : ((sk.ip = i) && sk.rsOpen) = true
    · rw [if_pos hc] at hres
      have h2 : mapGet (closeSock s.clients u) u = some sk' := hres
      rw [mapGet_closeSock, hg] at h2
      have h3 : ({ ip := sk.ip, rsOpen := false } : SockState) = sk' := by
        have h4 := Option.some.inj h2
        simpa using h4
      rw [← h3]
    · rw [if_neg hc] at hres
      rw [hg] at hres
      have hsk : sk = sk' := Option.some.inj hres
      rw [← hsk] at hip
      rw [← hsk]
      cases ho : sk.rsOpen with
      | false => rfl
      | true =>
        exact absurd (by rw [hip, ho]; simp :
          ((sk.ip = i : Bool) && sk.rsOpen) = true) hc

theorem mapGet_closeIpStep_cases (i u c : String) (s : ServerState) :
    mapGet (closeIpStep i u s).clients c = mapGet s.clients c ∨
    ∃ sk, mapGet s.clients c = some sk ∧
      mapGet (closeIpStep i u s).clients c = some { sk with rsOpen := false } := by
  by_cases hcu : c = u
  · unfold closeIpStep
    cases hg : mapGet s.clients u with
    | none => left; rfl
    | some sk =>
      dsimp only
      by_cases hc : ((sk.ip = i) && sk.rsOpen) = true
      · rw [if_pos hc]
        right
        refine ⟨sk, by rw [hcu]; exact hg, ?_⟩
        show mapGet (closeSock s.clients u) c = some { sk with rsOpen := false }
        rw [hcu, mapGet_closeSock, hg]
        simp
      · rw [if_neg hc]
        left
        rfl
  · left
    exact closeIpStep_other i u c s hcu

theorem mapGet_closeIpLoop_cases (i : String) (ks : List String) (s : ServerState)
    (c : String) :
    mapGet (closeIpLoop i ks s).clients c = mapGet s.clients c ∨
    ∃ sk, mapGet s.clients c = some sk ∧
      mapGet (closeIpLoop i ks s).clients c = some { sk with rsOpen := false } := by
  induction ks generalizing s with
  | nil => left; rfl
  | cons u rest ih =>
    rcases mapGet_closeIpStep_cases i u c s with h1 | ⟨sk, hsk, h1⟩
    · rcases ih (closeIpStep i u s) with h2 | ⟨sk2, hsk2, h2⟩
      · left
        exact h2.trans h1
      · right
        refine ⟨sk2, ?_, h2⟩
        rw [← h1]
        exact hsk2
    · rcases ih (closeIpStep i u s) with h2 | ⟨sk2, hsk2, h2⟩
      · right
        exact ⟨sk, hsk, h2.trans h1⟩
      · right
        have h3 : sk2 = { sk with rsOpen := false } := Option.some.inj (hsk2.symm.trans h1)
        have h5 : sk2.ip = sk.ip := by rw [h3]
        refine ⟨sk, hsk, ?_⟩
        exact h2.trans (by rw [h5])

theorem closeIpLoop_closes (i : String) (ks : List String) (s : ServerState) :
    ∀ c sk, c ∈ ks → mapGet (closeIpLoop i ks s).clients c = some sk →
      sk.ip = i → sk.rsOpen = false := by
  induction ks generalizing s with
  | nil =>
    intro c sk hmem _ _
    exact absurd hmem (List.not_mem_nil c)
  | cons u rest ih =>
    intro c sk hmem hres hip
    by_cases hcu : c = u
    · rcases mapGet_closeIpLoop_cases i rest (closeIpStep i u s) c with h1 | ⟨sk0, hsk0, h1⟩
      · have hstep : mapGet (closeIpStep i u s).clients c = some sk := by
          rw [← h1]
          exact hres
        rw [hcu] at hstep
        exact closeIpStep_post i u s sk hstep hip
      · have h2 : sk = { sk0 with rsOpen := false } := Option.some.inj (hres.symm.trans h1)
        rw [h2]
    · have hmem2 : c ∈ rest := by
        rcases List.mem_cons.mp hmem with h | h
        · exact absurd h hcu
        · exact h
      exact ih (closeIpStep i u s) c sk hmem2 hres hip

theorem closeIpStep_sent_mono (i u : String) (s : ServerState)
    (x : String × OutMsg) (hx : x ∈ s.sent) : x ∈ (closeIpStep i u s).sent := by
  unfold closeIpStep
  split
  · split
    · show x ∈ s.sent ++ [(u, OutMsg.banned "Your IP was banned.")]
      exact List.mem_append_left _ hx
    · exact hx
  · exact hx

theorem closeIpLoop_sent_mono (i : String) (ks : List String) (s : ServerState)
    (x : String × OutMsg) (hx : x ∈ s.sent) : x ∈ (closeIpLoop i ks s).sent := by
  induction ks generalizing s with
  | nil => exact hx
  | cons u rest ih =>
    exact ih (closeIpStep i u s) (closeIpStep_sent_mono i u s x hx)

theorem closeIpLoop_notifies (i : String) (ks : List String) (s : ServerState) :
    ∀ c sk, c ∈ ks → mapGet s.clients c = some sk → sk.ip = i → sk.rsOpen = true →
      (c, OutMsg.banned "Your IP was banned.") ∈ (closeIpLoop i ks s).sent := by
  induction ks generalizing s with
  | nil =>
    intro c sk hmem _ _ _
    exact absurd hmem (List.not_mem_nil c)
  | cons u rest ih =>
    intro c sk hmem hcl hip hopen
    by_cases hcu : c = u
    · have hsent : (c, OutMsg.banned "Your IP was banned.") ∈ (closeIpStep i u s).sent := by
        unfold closeIpStep
        rw [← hcu, hcl]
        dsimp only
        rw [if_pos (by rw [hip, hopen]; simp : ((sk.ip = i : Bool) && sk.rsOpen) = true)]
        show (c, OutMsg.banned "Your IP was banned.") ∈
          s.sent ++ [(c, OutMsg.banned "Your IP was banned.")]
        simp
      exact closeIpLoop_sent_mono i rest (closeIpStep i u s) _ hsent
    · have hmem2 : c ∈ rest := by
        rcases List.mem_cons.mp hmem with h | h
        · exact absurd h hcu
        · exact h
      have hcl2 : mapGet (closeIpStep i u s).clients c = some sk := by
        rw [closeIpStep_other i u c s hcu]
        exact hcl
      exact ih (closeIpStep i u s) c sk hmem2 hcl2 hip hopen

theorem mapGet_mem_keys {α : Type} (m : List (String × α)) (c : String) (v : α)
    (h : mapGet m c = some v) : c ∈ m.map Prod.fst := by
  induction m with
  | nil => exact Option.noConfusion h
  | cons kv rest ih =>
    rw [List.map_cons, List.mem_cons]
    by_cases hk : kv.1 = c
    · left
      exact hk.symm
    · right
      apply ih
      unfold mapGet at h
      rw [if_neg hk] at h
      exact h

theorem banUserAuthorized_ip_only (s : ServerState) (uid i : String) (hi : i ≠ "") :
    banUserAuthorized s uid none (some i) =
      closeIpLoop i
        ((stateSend (banAddSets s none (some i)) uid .banAck).clients.map Prod.fst)
        (stateSend (banAddSets s none (some i)) uid .banAck) := by
  unfold banUserAuthorized
  rw [optOrNull_some_ne i hi]
  rfl

theorem banUserAuthorized_uid_only (s : ServerState) (uid u : String) (hu : u ≠ "") :
    banUserAuthorized s uid (some u) none =
      banKillUid (stateSend (banAddSets s (some u) none) uid .banAck) (some u) := by
  unfold banUserAuthorized
  rw [optOrNull_some_ne u hu]
  rfl

/-- C7: as stated — a banned identity whose session is open but *unpaired* is
neither notified nor closed: after an authorized `ban_user` for B, B is in the
ban set but B's transport is still open and B received nothing (the kill
branch only fires for identities present in `activeConnections`). -/
theorem c7_counterexample :
    validTrace cfgAdmin (initState [] [] []) banUnpairedTrace = true ∧
    banUnpairedState.bansUserIds = ["B"] ∧
    rsOpen banUnpairedState "B" = true ∧
    banUnpairedState.sent =
      [("A", .connected "A"), ("B", .connected "B"), ("A", .banAck)] := by
  exact ⟨by decide, by decide, by decide, by decide⟩

/-- C7 (amended): for authorized `ban_user` requests, adding an
already-present identity or address leaves the ban sets unchanged; a banned
identity's session is sent `banned` and closed provided it is present in the
pair table (paired); every open session whose address matches a banned ip is
sent `banned` and closed regardless of pairing; authorized `unban_user`
removes the identity/address from the ban sets and touches no connection. -/
theorem c7_amended (cfg : Config) (s : ServerState) (uid : String)
    (mk : Option String) (hmk : mk = cfg.adminKey) :
    (∀ u, u ≠ "" → s.bansUserIds.contains u = true →
      (handleClientMsg cfg s uid (.banUser mk (some u) none)).bansUserIds =
        s.bansUserIds) ∧
    (∀ i, i ≠ "" → s.bansIps.contains i = true →
      (handleClientMsg cfg s uid (.banUser mk none (some i))).bansIps =
        s.bansIps) ∧
    (∀ u, u ≠ "" → mapHas s.activeConnections u = true →
      rsOpen (handleClientMsg cfg s uid (.banUser mk (some u) none)) u = false ∧
      (u, OutMsg.banned "You were banned by admin.") ∈
        (handleClientMsg cfg s uid (.banUser mk (some u) none)).sent) ∧
    (∀ i, i ≠ "" →
      (∀ c sk,
        mapGet (handleClientMsg cfg s uid (.banUser mk none (some i))).clients c =
          some sk → sk.ip = i → sk.rsOpen = false) ∧
      (∀ c sk, mapGet s.clients c = some sk → sk.ip = i → sk.rsOpen = true →
        (c, OutMsg.banned "Your IP was banned.") ∈
          (handleClientMsg cfg s uid (.banUser mk none (some i))).sent)) ∧
    (∀ u i, u ≠ "" → i ≠ "" →
      (handleClientMsg cfg s uid (.unbanUser mk (some u) (some i))).bansUserIds =
        s.bansUserIds.filter (fun x => x != u) ∧
      (handleClientMsg cfg s uid (.unbanUser mk (some u) (some i))).bansIps =
        s.bansIps.filter (fun x => x != i) ∧
      (handleClientMsg cfg s uid (.unbanUser mk (some u) (some i))).clients =
        s.clients ∧
      (handleClientMsg cfg s uid (.unbanUser mk (some u) (some i))).sent =
        s.sent ++ [(uid, OutMsg.unbanAck)]) := by
  have hred : ∀ a b, handleClientMsg cfg s uid (.banUser mk a b) =
      banUserAuthorized s uid a b := by
    intro a b
    unfold handleClientMsg
    dsimp only
    rw [if_pos hmk]
  have hredu : ∀ a b, handleClientMsg cfg s uid (.unbanUser mk a b) =
      unbanUserAuthorized s uid a b := by
    intro a b
    unfold handleClientMsg
    dsimp only
    rw [if_pos hmk]
  refine ⟨?_, ?_, ?_, ?_, ?_⟩
  · intro u hu hcont
    rw [hred, banUserAuthorized_uid_only s uid u hu]
    have hadd : banAddSets s (some u) none = s := by
      unfold banAddSets
      dsimp only
      rw [if_pos hcont]
    obtain ⟨_, _, _, _, _, k6⟩ :=
      banKillUid_core (stateSend (banAddSets s (some u) none) uid .banAck) (some u)
    rw [k6]
    show (banAddSets s (some u) none).bansUserIds = s.bansUserIds
    rw [hadd]
  · intro i hi hcont
    rw [hred, banUserAuthorized_ip_only s uid i hi]
    have hadd : banAddSets s none (some i) = s := by
      unfold banAddSets
      dsimp only
      rw [if_pos hcont]
    obtain ⟨_, _, _, _, g5, _⟩ := closeIpLoop_core i
      ((stateSend (banAddSets s none (some i)) uid .banAck).clients.map Prod.fst)
      (stateSend (banAddSets s none (some i)) uid .banAck)
    rw [g5]
    show (banAddSets s none (some i)).bansIps = s.bansIps
    rw [hadd]
  · intro u hu hhas
    rw [hred, banUserAuthorized_uid_only s uid u hu]
    have ha := (banAddSets_core s (some u) none).1
    have h3 : mapHas (stateSend (banAddSets s (some u) none) uid .banAck).activeConnections
        u = true := by
      show mapHas (banAddSets s (some u) none).activeConnections u = true
      rw [mapHas] at hhas ⊢
      rw [ha]
      exact hhas
    have hkill : banKillUid (stateSend (banAddSets s (some u) none) uid .banAck) (some u) =
        { stateSend (stateSend (banAddSets s (some u) none) uid .banAck) u
            (.banned "You were banned by admin.") with
          clients := closeSock
            (stateSend (banAddSets s (some u) none) uid .banAck).clients u } := by
      unfold banKillUid
      dsimp only
      rw [if_pos h3]
      rfl
    rw [hkill]
    constructor
    · show rsOpenCl (closeSock
        (stateSend (banAddSets s (some u) none) uid .banAck).clients u) u = false
      rw [rsOpenCl_closeSock]
      simp
    · show (u, OutMsg.banned "You were banned by admin.") ∈
        ((stateSend (banAddSets s (some u) none) uid .banAck).sent ++
          [(u, OutMsg.banned "You were banned by admin.")])
      simp
  · intro i hi
    rw [hred, banUserAuthorized_ip_only s uid i hi]
    have hcl : (stateSend (banAddSets s none (some i)) uid .banAck).clients = s.clients :=
      (banAddSets_core s none (some i)).2.2.1
    constructor
    · intro c sk hres hip
      have hmem : c ∈ (stateSend (banAddSets s none (some i)) uid
          .banAck).clients.map Prod.fst := by
        rcases mapGet_closeIpLoop_cases i
          ((stateSend (banAddSets s none (some i)) uid .banAck).clients.map Prod.fst)
          (stateSend (banAddSets s none (some i)) uid .banAck) c with h1 | ⟨sk0, hsk0, h1⟩
        · exact mapGet_mem_keys _ c sk (h1.symm.trans hres)
        · exact mapGet_mem_keys _ c sk0 hsk0
      exact closeIpLoop_closes i _ _ c sk hmem hres hip
    · intro c sk hscl hip hopen
      have hmem : c ∈ (stateSend (banAddSets s none (some i)) uid
          .banAck).clients.map Prod.fst := by
        rw [hcl]
        exact mapGet_mem_keys _ c sk hscl
      refine closeIpLoop_notifies i _ _ c sk hmem ?_ hip hopen
      rw [hcl]
      exact hscl
  · intro u i hu hi
    rw [hredu]
    have hun : unbanUserAuthorized s uid (some u) (some i) =
        stateSend { s with
          bansUserIds := s.bansUserIds.filter (fun x => x != u),
          bansIps := s.bansIps.filter (fun x => x != i) } uid .unbanAck := by
      unfold unbanUserAuthorized
      rw [optOrNull_some_ne u hu, optOrNull_some_ne i hi]
    rw [hun]
    exact ⟨rfl, rfl, rfl, rfl⟩

/-- Witness for `c7_amended`: an authorized unban on a concrete state. -/
theorem c7_amended_witness :
    (some "k" : Option String) = cfgAdmin.adminKey ∧
    (handleClientMsg cfgAdmin banUnpairedState "A"
        (.unbanUser (some "k") (some "B") (some "ipB"))).bansUserIds =
      banUnpairedState.bansUserIds.filter (fun x => x != "B") :=
  ⟨by decide,
   ((c7_amended cfgAdmin banUnpairedState "A" (some "k") (by decide)).2.2.2.2
      "B" "ipB" (by decide) (by decide)).1⟩

/-- C8: a stale waiting occupant (transport no longer open) is displaced, not
matched: the requester takes the slot, receives one `searching` notification,
and no `partner_found` notification or pair-table entry is produced — the
state is otherwise unchanged. -/
theorem c8_stale_slot (s : ServerState) (u w : String)
    (hw : s.waitingUser = some w) (hwu : w ≠ u)
    (hstale : rsOpen s w = false)
    (hu : mapHas s.activeConnections u = false) :
    findPartner s u =
      { s with waitingUser := some u, sent := s.sent ++ [(u, .searching)] } := by
  have hneg : ¬ mapHas s.activeConnections u = true := by
    rw [hu]
    exact Bool.false_ne_true
  have hrsneg : ¬ rsOpen s w = true := by
    rw [hstale]
    exact Bool.false_ne_true
  unfold findPartner
  rw [if_neg hneg, hw]
  try dsimp only
  rw [if_pos hwu, if_neg hrsneg]
  rfl

/-- Witness for `c8_stale_slot` on the concrete stale-slot state. -/
theorem c8_stale_slot_witness :
    (staleSlotState.waitingUser = some "W" ∧ rsOpen staleSlotState "W" = false ∧
      mapHas staleSlotState.activeConnections "U" = false) ∧
    (findPartner staleSlotState "U").waitingUser = some "U" ∧
    (findPartner staleSlotState "U").activeConnections =
      staleSlotState.activeConnections := by
  refine ⟨⟨by decide, by decide, by decide⟩, ?_, ?_⟩
  · rw [c8_stale_slot staleSlotState "U" "W" (by decide) (by decide) (by decide)
      (by decide)]
  · rw [c8_stale_slot staleSlotState "U" "W" (by decide) (by decide) (by decide)
      (by decide)]

/-- C9: relaying text, typing, or signaling is a silent no-op — state and sent
log unchanged — when the sender has no pair-table entry, and likewise when the
sender's partner's transport is not open. -/
theorem c9_relay_noop (s : ServerState) (u : String) :
    (mapGet s.activeConnections u = none →
      (∀ t, sendToPartner s u t = s) ∧ (∀ b, notifyTyping s u b = s) ∧
      (∀ k p, forwardToPartner s u k p = s)) ∧
    (∀ pid, mapGet s.activeConnections u = some pid → rsOpen s pid = false →
      (∀ t, sendToPartner s u t = s) ∧ (∀ b, notifyTyping s u b = s) ∧
      (∀ k p, forwardToPartner s u k p = s)) := by
  constructor
  · intro hn
    refine ⟨?_, ?_, ?_⟩
    · intro t
      unfold sendToPartner
      rw [hn]
    · intro b
      unfold notifyTyping
      rw [hn]
    · intro k p
      unfold forwardToPartner
      rw [hn]
  · intro pid hp hrs
    have hrsneg : ¬ rsOpen s pid = true := by
      rw [hrs]
      exact Bool.false_ne_true
    refine ⟨?_, ?_, ?_⟩
    · intro t
      unfold sendToPartner
      rw [hp]
      try dsimp only
      by_cases hpe : pid = ""
      · rw [if_pos hpe]
      · rw [if_neg hpe]
        cases hq : mapGet s.activeConnections pid with
        | none => rfl
        | some q =>
          try dsimp only
          rw [if_neg hrsneg]
    · intro b
      unfold notifyTyping
      rw [hp]
      try dsimp only
      by_cases hpe : pid = ""
      · rw [if_pos hpe]
      · rw [if_neg hpe]
        cases hq : mapGet s.activeConnections pid with
        | none => rfl
        | some q =>
          try dsimp only
          rw [if_neg hrsneg]
    · intro k p
      unfold forwardToPartner
      rw [hp]
      try dsimp only
      by_cases hpe : pid = ""
      · rw [if_pos hpe]
      · rw [if_neg hpe]
        cases hq : mapGet s.activeConnections pid with
        | none => rfl
        | some q =>
          try dsimp only
          rw [if_neg hrsneg]

/-- Witness for `c9_relay_noop` at a concrete unpaired sender. -/
theorem c9_relay_noop_witness :
    mapGet (initState [] [] []).activeConnections "A" = none ∧
    sendToPartner (initState [] [] []) "A" "hi" = initState [] [] [] :=
  ⟨rfl, ((c9_relay_noop (initState [] [] []) "A").1 rfl).1 "hi"⟩

theorem banKillUid_sent_mono (s : ServerState) (uidB : Option String)
    (x : String × OutMsg) (hx : x ∈ s.sent) : x ∈ (banKillUid s uidB).sent := by
  unfold banKillUid
  cases uidB with
  | none => exact hx
  | some u =>
    dsimp only
    split
    · show x ∈ s.sent ++ [(u, OutMsg.banned "You were banned by admin.")]
      exact List.mem_append_left _ hx
    · exact hx

/-- C10: with the `ADMIN_KEY` environment variable unset, an envelope that
carries no `adminKey` field passes the authorization check (both sides of the
comparison are undefined): every admin kind performs its operation and sends
its response to the requester. -/
theorem c10_unset_key (cfg : Config) (s : ServerState) (uid : String)
    (hk : cfg.adminKey = none) :
    handleClientMsg cfg s uid (.getUserCount none) =
      stateSend s uid (.userCount (getOnlineCount s)) ∧
    handleClientMsg cfg s uid (.getReports none) =
      stateSend s uid (.reportsMsg s.reports) ∧
    handleClientMsg cfg s uid (.getBans none) =
      stateSend s uid (.bansMsg s.bansIps s.bansUserIds) ∧
    (∀ u i, handleClientMsg cfg s uid (.banUser none u i) =
      banUserAuthorized s uid u i) ∧
    (∀ u i, handleClientMsg cfg s uid (.unbanUser none u i) =
      unbanUserAuthorized s uid u i) ∧
    (∀ u i, (uid, OutMsg.banAck) ∈
      (handleClientMsg cfg s uid (.banUser none u i)).sent) ∧
    (∀ u i, (uid, OutMsg.unbanAck) ∈
      (handleClientMsg cfg s uid (.unbanUser none u i)).sent) := by
  have hcond : (none : Option String) = cfg.adminKey := hk.symm
  have hredb : ∀ u i, handleClientMsg cfg s uid (.banUser none u i) =
      banUserAuthorized s uid u i := by
    intro u i
    unfold handleClientMsg
    dsimp only
    rw [if_pos hcond]
  have hredu : ∀ u i, handleClientMsg cfg s uid (.unbanUser none u i) =
      unbanUserAuthorized s uid u i := by
    intro u i
    unfold handleClientMsg
    dsimp only
    rw [if_pos hcond]
  refine ⟨?_, ?_, ?_, hredb, hredu, ?_, ?_⟩
  · unfold handleClientMsg
    dsimp only
    rw [if_pos hcond]
  · unfold handleClientMsg
    dsimp only
    rw [if_pos hcond]
  · unfold handleClientMsg
    dsimp only
    rw [if_pos hcond]
  · intro u i
    rw [hredb]
    unfold banUserAuthorized
    cases hio : optOrNull i with
    | none =>
      dsimp only
      exact banKillUid_sent_mono _ _ _ (by simp [stateSend])
    | some ip2 =>
      dsimp only
      exact closeIpLoop_sent_mono _ _ _ _
        (banKillUid_sent_mono _ _ _ (by simp [stateSend]))
  · intro u i
    rw [hredu]
    unfold unbanUserAuthorized
    cases optOrNull u <;> cases optOrNull i <;> simp [stateSend]

/-- Witness for `c10_unset_key` with a concrete unset-key configuration. -/
theorem c10_unset_key_witness :
    cfgNoAdmin.adminKey = none ∧
    handleClientMsg cfgNoAdmin (initState [] [] []) "A" (.getUserCount none) =
      stateSend (initState [] [] []) "A"
        (.userCount (getOnlineCount (initState [] [] []))) :=
  ⟨rfl, (c10_unset_key cfgNoAdmin (initState [] [] []) "A" rfl).1⟩

end Textify
